import Mathlib

/-!
Verification of the task classification and bucket-assignment pipeline
(src/lib/actions/bucket.ts).

Shallow embedding notes:
* Storage (the drizzle/Postgres tables `bucket` and `task`) is modelled as two
  in-memory lists kept in insertion order.  Every row is inserted with
  `createdAt = now()` under a monotone clock, so the source's
  `ORDER BY createdAt` coincides with insertion order; the `createdAt` /
  `updatedAt` columns themselves are not observable through any operation
  modelled here and are therefore omitted from the row types.
* `randomUUID()` is modelled by explicit fresh-id arguments.
* JavaScript `Date` values are instants; we model them as seconds since the
  Unix epoch (`Int`).  Millisecond precision is unobservable through the
  projections (`toISOString().slice(0,10)`, `slice(11,16)`, `getUTCHours`,
  `getUTCMinutes`), so fractional seconds are parsed syntactically and
  truncated.  `new Date(iso)` on a date-time string without offset parses in
  the runtime's local zone; the deployment zone is modelled as UTC, so
  local-naive composite instants coincide with UTC.
* `new Date(string)` parsing is modelled by the ECMAScript Date Time String
  Format (YYYY[-MM[-DD]][THH:mm[:ss[.s+]]][Z|+HH:mm|-HH:mm]), with calendar
  validation (month lengths, leap years) as performed by V8; strings outside
  the format yield an invalid date, modelled as `none`.
* The OpenAI chat completion is an injected black box: a `ModelOutcome` is
  either a thrown error (`failure`) or a successful response with an optional
  message content.  `JSON.parse` is modelled by a JSON parser below; JS
  truthiness checks (`!assignment`, `x || y`) are modelled explicitly.
  Non-string JSON values in string-typed fields are decoded as absent.  This
  is exact for `bucketId` (only compared by `===` to string ids), `typeTag`
  (only tested by `VALID_TASK_TYPES.includes`) and a non-object `parsedTask`
  (property access yields undefined), and for any falsy value; a truthy
  non-string in a field the source uses raw (`newBucketName` or a parsed
  task's string fields) instead makes the source throw a TypeError at the
  candidate name's `toLowerCase()` or store a coerced value.  The predicate
  `cleanSuggestion` delimits the faithful domain, and theorems whose
  conclusion does not also hold of the aborting source run assume it.
* `ensureOpenAIConfigured()` (a deployment-configuration check that throws
  when the API key is missing) is outside the modelled behaviour: the claims
  concern a configured deployment.
-/

/-! ## JavaScript-style string helpers -/

/-- JS falsiness of an optional string: `undefined`/absent or the empty
string. Used to model `!s` and `s || d` on optional string fields. -/
def strFalsy : Option String → Bool
  | none => true
  | some s => s.isEmpty

/-- JS `a || b` for an optional string `a` and default `b`. -/
def jsStrOr (a : Option String) (b : String) : String :=
  match a with
  | some s => if s.isEmpty then b else s
  | none => b

/-- JS `s.trim()`: strip leading and trailing whitespace. -/
def jsTrim (s : String) : String :=
  ⟨((s.data.dropWhile Char.isWhitespace).reverse.dropWhile Char.isWhitespace).reverse⟩

/-- `name.toLowerCase().replace(/\s+/g, '')`: lower-case and remove all
whitespace.  Used by the duplicate-bucket matcher. -/
def normalizeName (s : String) : String :=
  ⟨(s.data.map Char.toLower).filter (fun c => !c.isWhitespace)⟩

/-! ## Calendar arithmetic (civil-from-days and days-from-civil) -/

/-- Gregorian leap year. -/
def isLeap (y : Int) : Bool :=
  (y.emod 4 == 0 && y.emod 100 != 0) || y.emod 400 == 0

/-- Days in a month (1-12) of year `y`. -/
def daysInMonth (y : Int) (m : Nat) : Nat :=
  if m == 2 then (if isLeap y then 29 else 28)
  else if m == 4 || m == 6 || m == 9 || m == 11 then 30
  else 31

/-- Days since 1970-01-01 of the civil date `y-m-d` (Howard Hinnant's
`days_from_civil`). -/
def daysFromCivil (y : Int) (m d : Nat) : Int :=
  let yAdj : Int := if m ≤ 2 then y - 1 else y
  let era : Int := yAdj.fdiv 400
  let yoe : Int := yAdj - era * 400
  let mp : Int := if m > 2 then (m : Int) - 3 else (m : Int) + 9
  let doy : Int := (153 * mp + 2).fdiv 5 + (d : Int) - 1
  let doe : Int := yoe * 365 + yoe.fdiv 4 - yoe.fdiv 100 + doy
  era * 146097 + doe - 719468

/-- Civil date `(y, m, d)` of the day `z` days after 1970-01-01 (Howard
Hinnant's `civil_from_days`). -/
def civilFromDays (z : Int) : Int × Nat × Nat :=
  let z2 : Int := z + 719468
  let era : Int := z2.fdiv 146097
  let doe : Nat := (z2 - era * 146097).toNat
  let yoe : Nat := (doe - doe / 1460 + doe / 36524 - doe / 146096) / 365
  let doy : Nat := doe - (365 * yoe + yoe / 4 - yoe / 100)
  let mp : Nat := (5 * doy + 2) / 153
  let d : Nat := doy - (153 * mp + 2) / 5 + 1
  let m : Nat := if mp < 10 then mp + 3 else mp - 9
  ((era * 400 + (yoe : Int)) + (if m ≤ 2 then 1 else 0), m, d)

/-! ## ECMAScript date-time string parsing (model of `new Date(iso)`) -/

/-- Numeric value of a decimal digit character. -/
def digitVal (c : Char) : Nat := c.toNat - '0'.toNat

/-- Parse exactly two decimal digits. -/
def parse2 : List Char → Option (Nat × List Char)
  | a :: b :: rest =>
    if a.isDigit && b.isDigit then some (digitVal a * 10 + digitVal b, rest) else none
  | _ => none

/-- Parse exactly four decimal digits. -/
def parse4 (l : List Char) : Option (Nat × List Char) :=
  match parse2 l with
  | none => none
  | some (hi, r) =>
    match parse2 r with
    | none => none
    | some (lo, r2) => some (hi * 100 + lo, r2)

/-- Parse the date portion `YYYY[-MM[-DD]]` at the head of the input,
returning days since the epoch and the unconsumed remainder. -/
def parseDatePrefix (l : List Char) : Option (Int × List Char) :=
  match parse4 l with
  | none => none
  | some (y, r1) =>
    match r1 with
    | '-' :: r2 =>
      (match parse2 r2 with
       | none => none
       | some (m, r3) =>
         if m < 1 || 12 < m then none
         else
           match r3 with
           | '-' :: r4 =>
             (match parse2 r4 with
              | none => none
              | some (d, r5) =>
                if d < 1 || daysInMonth (y : Int) m < d then none
                else some (daysFromCivil (y : Int) m d, r5))
           | _ => some (daysFromCivil (y : Int) m 1, r3))
    | _ => some (daysFromCivil (y : Int) 1 1, r1)

/-- Parse a `HH:mm` pair that must consume the whole input; used for
timezone offsets.  Result in seconds. -/
def parseHM (l : List Char) : Option Int :=
  match l with
  | a :: b :: ':' :: c :: d :: [] =>
    if a.isDigit && b.isDigit && c.isDigit && d.isDigit then
      let hh := digitVal a * 10 + digitVal b
      let mm := digitVal c * 10 + digitVal d
      if hh ≤ 23 && mm ≤ 59 then some ((hh * 3600 + mm * 60 : Nat) : Int) else none
    else none
  | _ => none

/-- Parse the optional timezone offset (`Z` or `±HH:mm`), which must consume
the whole remainder.  Result: offset east of UTC, in seconds. -/
def parseOffsetPart : List Char → Option Int
  | [] => some 0
  | ['Z'] => some 0
  | '+' :: r => parseHM r
  | '-' :: r => (parseHM r).map Int.neg
  | _ => none

/-- Parse the optional `:ss[.s+]` seconds-and-fraction part, returning the
seconds value, whether the fraction is all zeros, and the remainder. -/
def parseSecFrac : List Char → Option (Nat × Bool × List Char)
  | ':' :: s1 :: s2 :: r =>
    if s1.isDigit && s2.isDigit then
      match r with
      | '.' :: r2 =>
        let ds := r2.takeWhile Char.isDigit
        if ds.isEmpty then none
        else some (digitVal s1 * 10 + digitVal s2, ds.all (· == '0'), r2.dropWhile Char.isDigit)
      | _ => some (digitVal s1 * 10 + digitVal s2, true, r)
    else none
  | l => some (0, true, l)

/-- Parse the time portion `HH:mm[:ss[.s+]][offset]`, consuming the whole
input.  Result: seconds within the day, shifted by the offset. -/
def parseTimeFull (l : List Char) : Option Int :=
  match l with
  | h1 :: h2 :: ':' :: m1 :: m2 :: rest =>
    if h1.isDigit && h2.isDigit && m1.isDigit && m2.isDigit then
      let hh := digitVal h1 * 10 + digitVal h2
      let mm := digitVal m1 * 10 + digitVal m2
      match parseSecFrac rest with
      | none => none
      | some (ss, msZero, r2) =>
        match parseOffsetPart r2 with
        | none => none
        | some off =>
          if mm ≤ 59 && ss ≤ 59 && (hh ≤ 23 || (hh == 24 && mm == 0 && ss == 0 && msZero)) then
            some (((hh * 3600 + mm * 60 + ss : Nat) : Int) - off)
          else none
    else none
  | _ => none

/-- Model of `new Date(s).getTime()` (in seconds) for the ECMAScript Date
Time String Format; `none` models an invalid date. -/
def parseJsDateChars (l : List Char) : Option Int :=
  match parseDatePrefix l with
  | none => none
  | some (days, rest) =>
    match rest with
    | [] => some (days * 86400)
    | 'T' :: tc => (parseTimeFull tc).map (fun secs => days * 86400 + secs)
    | _ => none

/-- String-level entry point of the date parser. -/
def parseJsDate (s : String) : Option Int :=
  parseJsDateChars s.data

/-! ## Instant projections (models of `toISOString` slices and UTC getters) -/

/-- Left-pad a string with zeros to the given length. -/
def zeroPad (s : String) (len : Nat) : String :=
  ⟨List.replicate (len - s.length) '0'⟩ ++ s

/-- Two-digit zero-padded decimal. -/
def pad2 (n : Nat) : String := zeroPad (toString n) 2

/-- `date.getUTCHours()` of an instant given in epoch seconds. -/
def getUTCHours (t : Int) : Nat := ((t.fdiv 3600).emod 24).toNat

/-- `date.getUTCMinutes()` of an instant given in epoch seconds. -/
def getUTCMinutes (t : Int) : Nat := ((t.fdiv 60).emod 60).toNat

/-- `date.toISOString().slice(0, 10)`: the `YYYY-MM-DD` date component of an
instant (epoch seconds).  Years are rendered zero-padded to four digits;
instants outside years 0-9999 are not exercised by the pipeline. -/
def toIsoDate (t : Int) : String :=
  let c := civilFromDays (t.fdiv 86400)
  let y := c.1
  let ys := if y < 0 then "-" ++ zeroPad (toString (-y).toNat) 4 else zeroPad (toString y.toNat) 4
  ys ++ "-" ++ pad2 c.2.1 ++ "-" ++ pad2 c.2.2

/-- `date.toISOString().slice(11, 16)`: the `HH:MM` time component of an
instant (epoch seconds). -/
def toIsoTimeHM (t : Int) : String :=
  pad2 (getUTCHours t) ++ ":" ++ pad2 (getUTCMinutes t)

/-! ## Due-Date Composer (`composeDueDate`) -/

/-- `composeDueDate(dueDate?, dueTime?)` from src/lib/actions/bucket.ts:
absent (or empty) date gives `undefined`; absent (or empty) time defaults to
"00:00"; a 5-character time gets ":00" appended, any other length is used
as-is; the concatenation `<date>T<time>` is parsed and a parse failure gives
`undefined`. -/
def composeDueDate (dueDate dueTime : Option String) : Option Int :=
  if strFalsy dueDate then none
  else
    let d := dueDate.getD ""
    let time := if strFalsy dueTime then "00:00" else dueTime.getD ""
    let isoTime := if time.length == 5 then time ++ ":00" else time
    parseJsDate (d ++ "T" ++ isoTime)

/-! ## JSON values and `JSON.parse` -/

/-- JSON values.  Numbers are only ever observed through JS truthiness in the
pipeline (no field with a numeric value is used as a string downstream), so a
number is represented by whether its mathematical value is zero. -/
inductive Json where
  | null
  | bool (b : Bool)
  | num (isZero : Bool)
  | str (s : String)
  | arr (elems : List Json)
  | obj (fields : List (String × Json))

/-- JavaScript truthiness of a JSON value. -/
def jsTruthy : Json → Bool
  | Json.null => false
  | Json.bool b => b
  | Json.num isZero => !isZero
  | Json.str s => !s.isEmpty
  | Json.arr _ => true
  | Json.obj _ => true

/-- A JSON whitespace character (space, tab, line feed, carriage return). -/
def isJsonWs (c : Char) : Bool :=
  ([' ', '\t', '\n', '\r'] : List Char).contains c

/-- Skip JSON whitespace. -/
def skipWs (l : List Char) : List Char :=
  l.dropWhile isJsonWs

/-- Hexadecimal digit value, if any (0-9, a-f, A-F by code point). -/
def hexVal (c : Char) : Option Nat :=
  let n := c.toNat
  if 48 ≤ n && n ≤ 57 then some (n - 48)
  else if 97 ≤ n && n ≤ 102 then some (n - 87)
  else if 65 ≤ n && n ≤ 70 then some (n - 55)
  else none

/-- Parse the body of a JSON string literal (after the opening quote),
accumulating characters in reverse; the fuel (any bound on the input length)
keeps the recursion structural. -/
def parseJsonStringAux : Nat → List Char → List Char → Option (String × List Char)
  | 0, _, _ => none
  | Nat.succ fuel, acc, l =>
    match l with
    | [] => none
    | '"' :: rest => some (⟨acc.reverse⟩, rest)
    | '\\' :: e :: rest =>
      (match e with
       | '"' => parseJsonStringAux fuel ('"' :: acc) rest
       | '\\' => parseJsonStringAux fuel ('\\' :: acc) rest
       | '/' => parseJsonStringAux fuel ('/' :: acc) rest
       | 'n' => parseJsonStringAux fuel ('\n' :: acc) rest
       | 't' => parseJsonStringAux fuel ('\t' :: acc) rest
       | 'r' => parseJsonStringAux fuel ('\r' :: acc) rest
       | 'b' => parseJsonStringAux fuel ('\x08' :: acc) rest
       | 'f' => parseJsonStringAux fuel ('\x0C' :: acc) rest
       | 'u' =>
         (match rest with
          | h1 :: h2 :: h3 :: h4 :: r2 =>
            (match hexVal h1, hexVal h2, hexVal h3, hexVal h4 with
             | some v1, some v2, some v3, some v4 =>
               parseJsonStringAux fuel
                 (Char.ofNat (((v1 * 16 + v2) * 16 + v3) * 16 + v4) :: acc) r2
             | _, _, _, _ => none)
          | _ => none)
       | _ => none)
    | c :: rest => if c.toNat < 32 then none else parseJsonStringAux fuel (c :: acc) rest

/-- Parse a JSON number, recording only whether its value is zero. -/
def parseJsonNumber (l : List Char) : Option (Json × List Char) :=
  let (neg, l1) := match l with
    | '-' :: r => (true, r)
    | _ => (false, l)
  let intPart : Option (List Char × List Char) :=
    match l1 with
    | '0' :: r => some (['0'], r)
    | c :: _ =>
      if c.isDigit then some (l1.takeWhile Char.isDigit, l1.dropWhile Char.isDigit)
      else none
    | [] => none
  match intPart with
  | none => none
  | some (ids, r2) =>
    let fracPart : Option (List Char × List Char) :=
      match r2 with
      | '.' :: r3 =>
        let ds := r3.takeWhile Char.isDigit
        if ds.isEmpty then none else some (ds, r3.dropWhile Char.isDigit)
      | _ => some ([], r2)
    match fracPart with
    | none => none
    | some (fds, r4) =>
      let expPart : Option (List Char) :=
        match r4 with
        | 'e' :: r5 =>
          (match r5 with
           | '+' :: r6 => (let ds := r6.takeWhile Char.isDigit
                           if ds.isEmpty then none else some (r6.dropWhile Char.isDigit))
           | '-' :: r6 => (let ds := r6.takeWhile Char.isDigit
                           if ds.isEmpty then none else some (r6.dropWhile Char.isDigit))
           | _ => (let ds := r5.takeWhile Char.isDigit
                   if ds.isEmpty then none else some (r5.dropWhile Char.isDigit)))
        | 'E' :: r5 =>
          (match r5 with
           | '+' :: r6 => (let ds := r6.takeWhile Char.isDigit
                           if ds.isEmpty then none else some (r6.dropWhile Char.isDigit))
           | '-' :: r6 => (let ds := r6.takeWhile Char.isDigit
                           if ds.isEmpty then none else some (r6.dropWhile Char.isDigit))
           | _ => (let ds := r5.takeWhile Char.isDigit
                   if ds.isEmpty then none else some (r5.dropWhile Char.isDigit)))
        | _ => some r4
      match expPart with
      | none => none
      | some r6 =>
        let _ := neg
        some (Json.num (ids.all (· == '0') && fds.all (· == '0')), r6)

mutual

/-- Fueled JSON value parser; fuel bounds nesting depth. -/
def parseJsonVal : Nat → List Char → Option (Json × List Char)
  | 0, _ => none
  | Nat.succ fuel, l =>
    match l with
    | 'n' :: 'u' :: 'l' :: 'l' :: r => some (Json.null, r)
    | 't' :: 'r' :: 'u' :: 'e' :: r => some (Json.bool true, r)
    | 'f' :: 'a' :: 'l' :: 's' :: 'e' :: r => some (Json.bool false, r)
    | '"' :: r => (parseJsonStringAux (r.length + 1) [] r).map (fun p => (Json.str p.1, p.2))
    | '\x7b' :: r =>
      (match skipWs r with
       | '\x7d' :: r2 => some (Json.obj [], r2)
       | r1 => (parseJsonMembers fuel r1).map (fun p => (Json.obj p.1, p.2)))
    | '[' :: r =>
      (match skipWs r with
       | ']' :: r2 => some (Json.arr [], r2)
       | r1 => (parseJsonElems fuel r1).map (fun p => (Json.arr p.1, p.2)))
    | _ => parseJsonNumber l

/-- Fueled parser for the members of a JSON object (expects a key next). -/
def parseJsonMembers : Nat → List Char → Option (List (String × Json) × List Char)
  | 0, _ => none
  | Nat.succ fuel, l =>
    match l with
    | '"' :: r =>
      (match parseJsonStringAux (r.length + 1) [] r with
       | none => none
       | some (key, r2) =>
         match skipWs r2 with
         | ':' :: r3 =>
           (match parseJsonVal fuel (skipWs r3) with
            | none => none
            | some (v, r4) =>
              match skipWs r4 with
              | ',' :: r5 =>
                (match parseJsonMembers fuel (skipWs r5) with
                 | none => none
                 | some (ms, r6) => some ((key, v) :: ms, r6))
              | '\x7d' :: r5 => some ([(key, v)], r5)
              | _ => none)
         | _ => none)
    | _ => none

/-- Fueled parser for the elements of a JSON array (expects a value next). -/
def parseJsonElems : Nat → List Char → Option (List Json × List Char)
  | 0, _ => none
  | Nat.succ fuel, l =>
    match parseJsonVal fuel l with
    | none => none
    | some (v, r) =>
      match skipWs r with
      | ',' :: r2 =>
        (match parseJsonElems fuel (skipWs r2) with
         | none => none
         | some (vs, r3) => some (v :: vs, r3))
      | ']' :: r2 => some ([v], r2)
      | _ => none

end

/-- Model of `JSON.parse`: parse a complete JSON document, `none` models a
thrown `SyntaxError`. -/
def parseJson (s : String) : Option Json :=
  match parseJsonVal (s.data.length + 1) (skipWs s.data) with
  | some (j, rest) => if (skipWs rest).isEmpty then some j else none
  | none => none

/-! ## AI Classification Client (`analyzeTaskWithAI`) -/

/-- Outcome of the injected chat-completion call: a thrown error
(network/auth/model failure), or a successful completion whose message
content may be absent. -/
inductive ModelOutcome where
  | failure
  | success (content : Option String)
deriving DecidableEq

/-- `analyzeTaskWithAI` from src/lib/actions/bucket.ts.  The prompt built
from the task text, the bucket summaries and the current date only influences
the model's answer, which is injected here as `outcome`; the function's own
logic is the `content ?? '\x7b\x7d'` default and the `JSON.parse` with both
catch blocks returning `undefined` (modelled as `none`). -/
def analyzeTaskWithAI (outcome : ModelOutcome) : Option Json :=
  match outcome with
  | ModelOutcome.failure => none
  | ModelOutcome.success content => parseJson (content.getD "\x7b\x7d")

/-! ## Parsed AI suggestion (dynamic field extraction) -/

/-- The `ParsedTask` shape of the AI response.  Each field is a JSON string
or absent; a non-string JSON value behaves as absent downstream. -/
structure ParsedTask where
  assignmentName : Option String := none
  dueDate : Option String := none
  dueTime : Option String := none
  description : Option String := none
  courseCategory : Option String := none
  typeTag : Option String := none
deriving DecidableEq

/-- The all-absent `ParsedTask`, the value of `assignment.parsedTask || \x7b\x7d`. -/
def emptyParsedTask : ParsedTask := {}

/-- The `AssignmentResult` shape of the AI response. -/
structure AssignmentResult where
  bucketId : Option String := none
  newBucketName : Option String := none
  parsedTask : Option ParsedTask := none
deriving DecidableEq

/-- Look up a key in a parsed JSON object.  `JSON.parse` keeps the last
duplicate of a key, hence the reversal. -/
def objGetLast (fields : List (String × Json)) (key : String) : Option Json :=
  (fields.reverse.find? (fun p => p.1 == key)).map (fun p => p.2)

/-- Extract a string-valued field; non-string values are decoded as absent.
This matches the source wherever the value only meets a JS-falsiness test or
a strict-equality/membership test against strings.  It does NOT match the
source for a truthy non-string value in a field whose raw value flows
onward: the source then throws at `bucketName.toLowerCase()` (candidate
bucket name) or coerces the value through a template literal or driver
serialization (parsed-task strings).  `cleanSuggestion` below delimits the
suggestions free of such values; theorems quantifying over accepted
suggestions either assume it or have conclusions that also hold of the
aborting source run. -/
def getStrField (fields : List (String × Json)) (key : String) : Option String :=
  match objGetLast fields key with
  | some (Json.str s) => some s
  | _ => none

/-- Extract the fields of `parsedTask` from its JSON object (see the
fidelity note on `getStrField`). -/
def decodeParsedTask (fields : List (String × Json)) : ParsedTask :=
  { assignmentName := getStrField fields "assignmentName"
    dueDate := getStrField fields "dueDate"
    dueTime := getStrField fields "dueTime"
    description := getStrField fields "description"
    courseCategory := getStrField fields "courseCategory"
    typeTag := getStrField fields "typeTag" }

/-- Dynamic extraction of an `AssignmentResult` from a parsed JSON value.
A truthy non-object value yields undefined on every property access, which is
the same as an object with no usable fields; a non-object `parsedTask` value
likewise behaves as the empty parsed task.  Built on `getStrField`, so its
fidelity domain is the clean suggestions (`cleanSuggestion` below); the
collapse of truthy non-string values to absent is exact for `bucketId`
(only ever compared by `===` to string ids) and `typeTag` (only ever tested
by `VALID_TASK_TYPES.includes`), but not for the fields the source uses
raw. -/
def decodeAssignment : Json → AssignmentResult
  | Json.obj fields =>
    { bucketId := getStrField fields "bucketId"
      newBucketName := getStrField fields "newBucketName"
      parsedTask :=
        match objGetLast fields "parsedTask" with
        | some (Json.obj pf) => some (decodeParsedTask pf)
        | _ => none }
  | _ => {}

/-- Is an optional JSON field value a string or JS-falsy?  On such values
the absent-collapse of `getStrField` agrees with the source's `||` fallback
chains and falsiness guards; a truthy non-string value is instead used raw
by the source. -/
def strOrFalsy : Option Json → Bool
  | none => true
  | some (Json.str _) => true
  | some v => !jsTruthy v

/-- A suggestion is clean when every field whose raw value the source uses
beyond a strict-equality, membership or falsiness test is a string or
falsy: the new-bucket name, and the parsed task's assignment name, course
category, due date, due time and description.  (`bucketId` only meets `===`
against string ids, `typeTag` only meets the `includes` test, and a
non-object `parsedTask` yields undefined on every access, so every value of
those is decoded faithfully.)  On a clean suggestion `decodeAssignment` and
`assignTaskToBucket` below agree with the source; on an unclean one the
source throws a TypeError at the candidate name's `toLowerCase()` (creating
nothing) or stores coerced non-string values. -/
def cleanSuggestion : Json → Bool
  | Json.obj fields =>
    strOrFalsy (objGetLast fields "newBucketName") &&
    (match objGetLast fields "parsedTask" with
     | some (Json.obj pf) =>
       strOrFalsy (objGetLast pf "assignmentName") &&
       strOrFalsy (objGetLast pf "courseCategory") &&
       strOrFalsy (objGetLast pf "dueDate") &&
       strOrFalsy (objGetLast pf "dueTime") &&
       strOrFalsy (objGetLast pf "description")
     | _ => true)
  | _ => true

/-! ## Lexical Fallback Categorizer (`categorizeTaskType`) -/

/-- Task type tags. -/
inductive TaskType where
  | Homework
  | Quiz
  | Lab
  | Test
  | Project
  | Event
  | Reminder
  | Other
deriving DecidableEq

/-- `VALID_TASK_TYPES`, as the list of strings the membership test
`VALID_TASK_TYPES.includes(parsedTask.typeTag)` really compares against. -/
def validTaskTypes : List String :=
  ["Homework", "Quiz", "Lab", "Test", "Project", "Event", "Reminder", "Other"]

/-- The regular expressions used by the categorizer: plain substrings,
`\b p \b` word patterns and `p \b` end-boundary patterns (all patterns in the
source consist of word characters). -/
inductive Pat where
  | sub (p : List Char)
  | bword (p : List Char)
  | bend (p : List Char)

/-- JS regex word character (`\w` = `[A-Za-z0-9_]`). -/
def isWordChar (c : Char) : Bool := c.isAlphanum || c == '_'

/-- Word boundary after a candidate match of `p` at the head of `s`. -/
def boundaryAfter (p s : List Char) : Bool :=
  match s.drop p.length with
  | [] => true
  | c :: _ => !isWordChar c

/-- Does the pattern match at the current position (`prev` is the character
just before the position, if any)? -/
def patMatchHere (pat : Pat) (prev : Option Char) (s : List Char) : Bool :=
  match pat with
  | Pat.sub p => p.isPrefixOf s
  | Pat.bword p =>
    (match prev with
     | none => true
     | some c => !isWordChar c) && p.isPrefixOf s && boundaryAfter p s
  | Pat.bend p => p.isPrefixOf s && boundaryAfter p s

/-- Scan for a match of the pattern anywhere in the remaining input. -/
def patMatchAux (pat : Pat) (prev : Option Char) (s : List Char) : Bool :=
  patMatchHere pat prev s ||
    match s with
    | [] => false
    | c :: rest => patMatchAux pat (some c) rest

/-- `regex.test(s)`. -/
def patMatch (pat : Pat) (s : List Char) : Bool := patMatchAux pat none s

/-- Patterns of the Homework group: `/homework/, /\bhw\b/, /assignment/`. -/
def homeworkPats : List Pat :=
  [Pat.sub "homework".data, Pat.bword "hw".data, Pat.sub "assignment".data]

/-- Patterns of the Quiz group: `/quiz/`. -/
def quizPats : List Pat := [Pat.sub "quiz".data]

/-- Patterns of the Lab group: `/lab\b/, /laboratory/`. -/
def labPats : List Pat := [Pat.bend "lab".data, Pat.sub "laboratory".data]

/-- Patterns of the Test group: `/test/, /midterm/, /final exam/, /exam/`. -/
def testPats : List Pat :=
  [Pat.sub "test".data, Pat.sub "midterm".data, Pat.sub "final exam".data, Pat.sub "exam".data]

/-- Patterns of the Project group: `/project/, /presentation/`. -/
def projectPats : List Pat := [Pat.sub "project".data, Pat.sub "presentation".data]

/-- Patterns of the Event group: `/event/, /meeting/, /rehearsal/, /game/, /practice/`. -/
def eventPats : List Pat :=
  [Pat.sub "event".data, Pat.sub "meeting".data, Pat.sub "rehearsal".data,
   Pat.sub "game".data, Pat.sub "practice".data]

/-- Patterns of the Reminder group: `/reminder/, /note/, /remember/`. -/
def reminderPats : List Pat :=
  [Pat.sub "reminder".data, Pat.sub "note".data, Pat.sub "remember".data]

/-- The ordered keyword groups of `categorizeTaskType`. -/
def typeGroups : List (TaskType × List Pat) :=
  [(TaskType.Homework, homeworkPats),
   (TaskType.Quiz, quizPats),
   (TaskType.Lab, labPats),
   (TaskType.Test, testPats),
   (TaskType.Project, projectPats),
   (TaskType.Event, eventPats),
   (TaskType.Reminder, reminderPats)]

/-- Does any pattern of the group match the source? -/
def groupHit (pats : List Pat) (src : List Char) : Bool :=
  pats.any (fun p => patMatch p src)

/-- The lower-cased concatenation
`` `${task} ${parsedTask?.description ?? ''} ${parsedTask?.assignmentName ?? ''}` ``. -/
def categorizeSource (task : String) (parsedTask : Option ParsedTask) : List Char :=
  (task ++ " " ++ ((parsedTask.bind ParsedTask.description).getD "") ++ " " ++
    ((parsedTask.bind ParsedTask.assignmentName).getD "")).data.map Char.toLower

/-- `categorizeTaskType` from src/lib/actions/bucket.ts: the tag of the first
group with any pattern match, `Other` when none matches. -/
def categorizeTaskType (task : String) (parsedTask : Option ParsedTask) : TaskType :=
  let source := categorizeSource task parsedTask
  match typeGroups.find? (fun e => groupHit e.2 source) with
  | some e => e.1
  | none => TaskType.Other

/-! ## Storage model -/

/-- A row of the `bucket` table (see the embedding notes for the omitted
timestamp columns). -/
structure BucketRow where
  id : String
  name : String
  userId : String
deriving DecidableEq

/-- A row of the `task` table. The due timestamp is an instant in epoch
seconds. -/
structure TaskRow where
  id : String
  bucketId : String
  raw : String
  assignmentName : Option String
  description : Option String
  dueDate : Option Int
deriving DecidableEq

/-- The relational store: both tables, each in insertion (= creation) order. -/
structure DB where
  buckets : List BucketRow
  tasks : List TaskRow
deriving DecidableEq

/-- The empty store. -/
def emptyDB : DB := ⟨[], []⟩

/-- The `TaskItem` view records returned by `loadBuckets`. -/
structure TaskItem where
  id : String
  raw : String
  assignmentName : Option String
  dueDate : Option String
  dueTime : Option String
  description : Option String
  typeTag : Option TaskType
  bucketCategory : Option String
deriving DecidableEq

/-- The `Bucket` view records returned by `loadBuckets`. -/
structure Bucket where
  id : String
  name : String
  items : List TaskItem
deriving DecidableEq

/-- The `CalendarTask` view records returned by `loadCalendarTasks`. -/
structure CalendarTask where
  id : String
  bucketName : String
  assignmentName : Option String
  raw : String
  dueDate : Option String
  dueTime : Option String
  description : Option String
  typeTag : Option TaskType
deriving DecidableEq

/-- `DEFAULT_BUCKET_NAMES`. -/
def defaultBucketNames : List String := ["Events"]

/-- `s.toLowerCase()` on a whole string. -/
def lowerStr (s : String) : String := ⟨s.data.map Char.toLower⟩

/-- The protected-name check used by `deleteBucket` and `updateBucketName`:
case-insensitive exact comparison against the reserved default names (note:
no whitespace stripping, unlike `normalizeName`). -/
def isDefaultBucketName (name : String) : Bool :=
  defaultBucketNames.any (fun n => lowerStr n == lowerStr name)

/-- Fresh identifiers consumed by one `assignTaskToBucket` call: the id for a
lazily created default bucket, the id for a newly created target bucket and
the id of the new task row. -/
structure FreshIds where
  defaultBucketId : String
  newBucketId : String
  newTaskId : String
deriving DecidableEq

/-! ## Read-side projections and operations -/

/-- `formatTaskRecord`: re-derive the display fields of a task row.  The due
timestamp splits into a date component and a time component that is present
only when `getUTCHours() !== 0 || getUTCMinutes() !== 0`; the type tag is
recomputed from the raw text and the stored assignment name/description. -/
def formatTaskRecord (task : TaskRow) : TaskItem :=
  let dueDate := task.dueDate.map toIsoDate
  let dueTime :=
    match task.dueDate with
    | some t => if getUTCHours t != 0 || getUTCMinutes t != 0 then some (toIsoTimeHM t) else none
    | none => none
  { id := task.id
    raw := task.raw
    assignmentName := task.assignmentName
    dueDate := dueDate
    dueTime := dueTime
    description := task.description
    typeTag := some (categorizeTaskType task.raw
      (some { assignmentName := task.assignmentName, description := task.description }))
    bucketCategory := none }

/-- The bucket-grouped view of a user's rows: buckets in creation order,
each with its tasks in creation order. -/
def bucketView (db : DB) (userId : String) : List Bucket :=
  (db.buckets.filter (fun b => b.userId == userId)).map (fun b =>
    { id := b.id
      name := b.name
      items := (db.tasks.filter (fun t => t.bucketId == b.id)).map formatTaskRecord })

/-- Is there a bucket named exactly `"Events"` (`DEFAULT_BUCKET_NAMES[0]`,
the seeded default) for this user?  This is the emptiness test of
`ensureDefaultBuckets`' select. -/
def hasEventsBucket (db : DB) (userId : String) : Bool :=
  db.buckets.any (fun b => b.userId == userId && b.name == "Events")

/-- `ensureDefaultBuckets`: insert the default bucket (exact name match per
user) when it is missing. -/
def ensureDefaultBuckets (db : DB) (userId freshId : String) : DB :=
  if hasEventsBucket db userId then db
  else { db with buckets := db.buckets ++ [⟨freshId, "Events", userId⟩] }

/-- `loadBuckets`: an empty user id short-circuits to `[]`; otherwise ensure
the default bucket, then return the bucket-grouped view.  Returns the
(possibly grown) store alongside the view. -/
def loadBuckets (db : DB) (userId freshId : String) : DB × List Bucket :=
  if userId == "" then (db, [])
  else
    let db2 := ensureDefaultBuckets db userId freshId
    (db2, bucketView db2 userId)

/-- Resolution of the suggested existing-bucket id against the loaded
buckets (`existingBuckets.find((b) => b.id === assignment.bucketId)`). -/
def findByAssignmentId (existing : List Bucket) (assignment : AssignmentResult) : Option Bucket :=
  match assignment.bucketId with
  | some bid => existing.find? (fun b => b.id == bid)
  | none => none

/-- The candidate bucket name
`assignment.newBucketName || assignment.parsedTask?.courseCategory || 'Others'`. -/
def candidateBucketName (assignment : AssignmentResult) : String :=
  jsStrOr assignment.newBucketName
    (jsStrOr (assignment.parsedTask.bind ParsedTask.courseCategory) "Others")

/-- The normalized-name duplicate match: first loaded bucket whose
normalized name equals the candidate's normalized name. -/
def findNormalizedMatch (existing : List Bucket) (name : String) : Option Bucket :=
  existing.find? (fun b => normalizeName b.name == normalizeName name)

/-- Resolve (or create) the target bucket for an accepted AI suggestion:
suggested existing id first, then normalized-name match of the candidate
name, else a freshly inserted bucket row carrying the candidate name.
Returns the (possibly grown) store and the target bucket id. -/
def resolveTargetBucket (db : DB) (existing : List Bucket) (assignment : AssignmentResult)
    (newBucketId userId : String) : DB × String :=
  match findByAssignmentId existing assignment with
  | some b => (db, b.id)
  | none =>
    let bucketName := candidateBucketName assignment
    match findNormalizedMatch existing bucketName with
    | some b => (db, b.id)
    | none =>
      ({ db with buckets := db.buckets ++ [⟨newBucketId, bucketName, userId⟩] }, newBucketId)

/-- Does the write-time type-tag finalization consult the fallback
categorizer?  (`parsedTask.typeTag && VALID_TASK_TYPES.includes(...)`
selects the AI tag; otherwise `categorizeTaskType` is invoked.  The computed
tag itself is not part of the insert — the task row has no tag column — so
only the invocation is recorded.) -/
def fallbackInvocations (parsedTask : ParsedTask) : Nat :=
  match parsedTask.typeTag with
  | some tt => if !tt.isEmpty && validTaskTypes.contains tt then 0 else 1
  | none => 1

/-- The task row inserted by `assignTaskToBucket`. -/
def buildTaskRow (newTaskId targetBucketId trimmedTask : String)
    (parsedTask : ParsedTask) : TaskRow :=
  { id := newTaskId
    bucketId := targetBucketId
    raw := trimmedTask
    assignmentName := some (jsStrOr parsedTask.assignmentName
      (jsStrOr parsedTask.courseCategory "Task"))
    description := some (jsStrOr parsedTask.description trimmedTask)
    dueDate := composeDueDate parsedTask.dueDate parsedTask.dueTime }

/-- Result of `assignTaskToBucket`: the final store, the reloaded bucket
view handed to the caller, and the number of write-time invocations of the
fallback categorizer. -/
structure AssignOutput where
  db : DB
  view : List Bucket
  fallbackCalls : Nat
deriving DecidableEq

/-- `assignTaskToBucket` from src/lib/actions/bucket.ts. -/
def assignTaskToBucket (db : DB) (task userId : String) (outcome : ModelOutcome)
    (ids : FreshIds) : AssignOutput :=
  let trimmedTask := (jsTrim task)
  if trimmedTask == "" || userId == "" then
    let r := loadBuckets db userId ids.defaultBucketId
    ⟨r.1, r.2, 0⟩
  else
    let db1 := ensureDefaultBuckets db userId ids.defaultBucketId
    let r1 := loadBuckets db1 userId ids.defaultBucketId
    let db2 := r1.1
    let existingBuckets := r1.2
    match analyzeTaskWithAI outcome with
    | none =>
      let r := loadBuckets db2 userId ids.defaultBucketId
      ⟨r.1, r.2, 0⟩
    | some j =>
      if jsTruthy j then
        let assignment := decodeAssignment j
        let resolved := resolveTargetBucket db2 existingBuckets assignment ids.newBucketId userId
        let parsedTask := assignment.parsedTask.getD emptyParsedTask
        let row := buildTaskRow ids.newTaskId resolved.2 trimmedTask parsedTask
        let db4 : DB := { resolved.1 with tasks := resolved.1.tasks ++ [row] }
        let r := loadBuckets db4 userId ids.defaultBucketId
        ⟨r.1, r.2, fallbackInvocations parsedTask⟩
      else
        let r := loadBuckets db2 userId ids.defaultBucketId
        ⟨r.1, r.2, 0⟩

/-- `deleteBucket`: guarded, owner-scoped delete with cascade to the
bucket's tasks; reserved default names are protected. -/
def deleteBucket (db : DB) (userId bucketId freshId : String) : DB × List Bucket :=
  if userId == "" || bucketId == "" then loadBuckets db userId freshId
  else
    match (db.buckets.filter (fun b => b.id == bucketId && b.userId == userId)).head? with
    | none => loadBuckets db userId freshId
    | some bucket =>
      if isDefaultBucketName bucket.name then loadBuckets db userId freshId
      else
        loadBuckets
          { buckets := db.buckets.filter (fun b => !(b.id == bucketId))
            tasks := db.tasks.filter (fun t => !(t.bucketId == bucketId)) }
          userId freshId

/-- The owner-scoped task lookup (inner join with the bucket table) used by
`completeTask` and `updateTask`. -/
def taskOwnedBy (db : DB) (userId taskId : String) : Option TaskRow :=
  (db.tasks.filter (fun t => t.id == taskId &&
    db.buckets.any (fun b => b.id == t.bucketId && b.userId == userId))).head?

/-- `completeTask`: completion deletes the task row. -/
def completeTask (db : DB) (userId taskId freshId : String) : DB × List Bucket :=
  if userId == "" || taskId == "" then loadBuckets db userId freshId
  else
    match taskOwnedBy db userId taskId with
    | none => loadBuckets db userId freshId
    | some _ =>
      loadBuckets { db with tasks := db.tasks.filter (fun t => !(t.id == taskId)) } userId freshId

/-- `createEmptyBucket`: inserts a bucket with the trimmed name without any
duplicate check. -/
def createEmptyBucket (db : DB) (userId bucketName newId freshId : String) : DB × List Bucket :=
  if userId == "" || (jsTrim bucketName) == "" then loadBuckets db userId freshId
  else
    loadBuckets { db with buckets := db.buckets ++ [⟨newId, (jsTrim bucketName), userId⟩] }
      userId freshId

/-- `updateBucketName`: owner-scoped rename, protected for reserved default
names; no duplicate check on the new name. -/
def updateBucketName (db : DB) (userId bucketId newName freshId : String) : DB × List Bucket :=
  if userId == "" || bucketId == "" || (jsTrim newName) == "" then loadBuckets db userId freshId
  else
    match (db.buckets.filter (fun b => b.id == bucketId && b.userId == userId)).head? with
    | none => loadBuckets db userId freshId
    | some bucket =>
      if isDefaultBucketName bucket.name then loadBuckets db userId freshId
      else
        loadBuckets
          { db with buckets := db.buckets.map (fun b =>
              if b.id == bucketId then { b with name := (jsTrim newName) } else b) }
          userId freshId

/-! ## Calendar projection and `updateTask` -/

/-- `ORDER BY dueDate` comparison: ascending instants with nulls last
(Postgres default for ascending order). -/
def dueBefore (a b : Option Int) : Bool :=
  match a, b with
  | some x, some y => x < y
  | some _, none => true
  | none, _ => false

/-- Stable insertion into a list sorted by `dueBefore` (ties keep the
original—creation—order, matching the `dueDate, createdAt` sort key). -/
def insertByDue (x : TaskRow × String) : List (TaskRow × String) → List (TaskRow × String)
  | [] => [x]
  | y :: ys =>
    if dueBefore y.1.dueDate x.1.dueDate then y :: insertByDue x ys else x :: y :: ys

/-- Stable sort by due timestamp then creation order. -/
def sortByDue : List (TaskRow × String) → List (TaskRow × String)
  | [] => []
  | x :: xs => insertByDue x (sortByDue xs)

/-- Append an entry to its group in an insertion-ordered association list
(the iteration order of a JS object with non-numeric string keys). -/
def insertGrouped (acc : List (String × List CalendarTask)) (key : String)
    (entry : CalendarTask) : List (String × List CalendarTask) :=
  if acc.any (fun p => p.1 == key) then
    acc.map (fun p => if p.1 == key then (p.1, p.2 ++ [entry]) else p)
  else acc ++ [(key, [entry])]

/-- `loadCalendarTasks`: the user's task rows joined with their buckets,
ordered by due timestamp then creation, grouped by the date-component key
(or the literal key `"unscheduled"`). -/
def loadCalendarTasks (db : DB) (userId : String) : List (String × List CalendarTask) :=
  if userId == "" then []
  else
    let joined := db.tasks.filterMap (fun t =>
      match db.buckets.find? (fun b => b.id == t.bucketId && b.userId == userId) with
      | some b => some (t, b.name)
      | none => none)
    (sortByDue joined).foldl (fun acc tb =>
      let t := tb.1
      let dueDateKey :=
        match t.dueDate with
        | some s => toIsoDate s
        | none => "unscheduled"
      let dueTime :=
        match t.dueDate with
        | some s => if getUTCHours s != 0 || getUTCMinutes s != 0 then some (toIsoTimeHM s) else none
        | none => none
      let entry : CalendarTask :=
        { id := t.id
          bucketName := tb.2
          assignmentName := t.assignmentName
          raw := t.raw
          dueDate := some dueDateKey
          dueTime := dueTime
          description := t.description
          typeTag := some (categorizeTaskType t.raw
            (some { assignmentName := t.assignmentName, description := t.description })) }
      insertGrouped acc dueDateKey entry) []

/-- The partial field updates accepted by `updateTask`. -/
structure TaskUpdates where
  assignmentName : Option String := none
  description : Option String := none
  dueDate : Option String := none
  dueTime : Option String := none
  bucketId : Option String := none
deriving DecidableEq

/-- `updateTask`: owner-scoped partial update.  Absent fields are omitted
from the drizzle `set` and left unchanged; the due timestamp is recomposed
only when a (truthy) `dueDate` update is given, and a failed composition is
likewise omitted. -/
def updateTask (db : DB) (userId taskId : String) (updates : TaskUpdates) :
    DB × List (String × List CalendarTask) :=
  if userId == "" || taskId == "" then (db, loadCalendarTasks db userId)
  else
    match taskOwnedBy db userId taskId with
    | none => (db, loadCalendarTasks db userId)
    | some _ =>
      let newDue := if strFalsy updates.dueDate then none
        else composeDueDate updates.dueDate updates.dueTime
      let db2 : DB :=
        { db with tasks := db.tasks.map (fun t =>
            if t.id == taskId then
              { t with
                assignmentName := (updates.assignmentName.map some).getD t.assignmentName
                description := (updates.description.map some).getD t.description
                dueDate := (newDue.map some).getD t.dueDate
                bucketId := updates.bucketId.getD t.bucketId }
            else t) }
      (db2, loadCalendarTasks db2 userId)

/-! ## Stated invariants and per-claim contracts -/

/-- The duplicate-name invariant: within one user's buckets, no two bucket
names normalize (lower-cased, whitespace removed) to the same value. -/
def bucketNamesNormUnique (db : DB) (userId : String) : Prop :=
  ((db.buckets.filter (fun b => b.userId == userId)).map
    (fun b => normalizeName b.name)).Nodup

instance (db : DB) (userId : String) : Decidable (bucketNamesNormUnique db userId) :=
  inferInstanceAs (Decidable (List.Nodup _))

/-- The bucket-resolution contract of one `assignTaskToBucket` call whose AI
suggestion was accepted: the suggested existing-bucket id wins when it
matches a loaded bucket; otherwise the candidate name is
normalized-matched against the loaded buckets (first match in creation
order), and only when that fails is a bucket row with the candidate name
inserted. -/
def ResolutionSpec (db : DB) (task userId : String) (outcome : ModelOutcome)
    (ids : FreshIds) (a : AssignmentResult) : Prop :=
  let existing := bucketView db userId
  let out := assignTaskToBucket db task userId outcome ids
  let row := fun targetId => buildTaskRow ids.newTaskId targetId (jsTrim task)
    (a.parsedTask.getD emptyParsedTask)
  (∀ b, findByAssignmentId existing a = some b →
    out.db.buckets = db.buckets ∧ out.db.tasks = db.tasks ++ [row b.id]) ∧
  (findByAssignmentId existing a = none →
    (∀ b, findNormalizedMatch existing (candidateBucketName a) = some b →
      out.db.buckets = db.buckets ∧ out.db.tasks = db.tasks ++ [row b.id]) ∧
    (findNormalizedMatch existing (candidateBucketName a) = none →
      out.db.buckets = db.buckets ++ [⟨ids.newBucketId, candidateBucketName a, userId⟩] ∧
      out.db.tasks = db.tasks ++ [row ids.newBucketId]))

/-- The behaviour of one `assignTaskToBucket` call whose accepted AI
suggestion carries no usable field: a task is still created, titled the
literal "Task", described by the trimmed raw text, unscheduled, in a bucket
resolved from the literal name "Others", and the write-time fallback
categorizer is consulted; the projected type tag comes from the fallback
categorizer applied to the stored fields. -/
def EmptySuggestionSpec (db : DB) (task userId : String) (outcome : ModelOutcome)
    (ids : FreshIds) : Prop :=
  let out := assignTaskToBucket db task userId outcome ids
  let row : TaskRow :=
    { id := ids.newTaskId
      bucketId :=
        match findNormalizedMatch (bucketView db userId) "Others" with
        | some b => b.id
        | none => ids.newBucketId
      raw := (jsTrim task)
      assignmentName := some "Task"
      description := some (jsTrim task)
      dueDate := none }
  out.db.tasks = db.tasks ++ [row] ∧
  (findNormalizedMatch (bucketView db userId) "Others" = none →
    out.db.buckets = db.buckets ++ [⟨ids.newBucketId, "Others", userId⟩]) ∧
  (∀ b, findNormalizedMatch (bucketView db userId) "Others" = some b →
    out.db.buckets = db.buckets) ∧
  out.fallbackCalls = 1 ∧
  (formatTaskRecord row).typeTag = some (categorizeTaskType (jsTrim task)
    (some { assignmentName := some "Task", description := some (jsTrim task) }))

/-! ## Helper lemmas about the operations -/

theorem ensure_noop (db : DB) (u i : String) (h : hasEventsBucket db u = true) :
    ensureDefaultBuckets db u i = db := by
  simp [ensureDefaultBuckets, h]

theorem hasEvents_mono (bs l : List BucketRow) (ts ts2 : List TaskRow) (u : String)
    (h : hasEventsBucket ⟨bs, ts⟩ u = true) : hasEventsBucket ⟨bs ++ l, ts2⟩ u = true := by
  simp only [hasEventsBucket, List.any_eq_true] at h ⊢
  rcases h with ⟨b, hb, h2⟩
  exact ⟨b, List.mem_append_left _ hb, h2⟩

theorem ensure_hasEvents (db : DB) (u i : String) :
    hasEventsBucket (ensureDefaultBuckets db u i) u = true := by
  by_cases h : hasEventsBucket db u = true
  · simp [ensureDefaultBuckets, h]
  · simp only [ensureDefaultBuckets, h, Bool.false_eq_true, if_false]
    simp [hasEventsBucket, List.any_eq_true]

theorem loadBuckets_noop (db : DB) (u i : String) (hE : hasEventsBucket db u = true)
    (hU : u ≠ "") : loadBuckets db u i = (db, bucketView db u) := by
  simp [loadBuckets, hU, ensure_noop db u i hE]

theorem hasEvents_tasks (db : DB) (ts : List TaskRow) (u : String) :
    hasEventsBucket { db with tasks := ts } u = hasEventsBucket db u := rfl

theorem resolve_hasEvents (db : DB) (ex : List Bucket) (a : AssignmentResult) (nid u : String)
    (hE : hasEventsBucket db u = true) :
    hasEventsBucket (resolveTargetBucket db ex a nid u).1 u = true := by
  simp only [resolveTargetBucket]
  split
  · simpa
  · split
    · simpa
    · obtain ⟨bs, ts⟩ := db
      exact hasEvents_mono bs _ ts ts u hE

theorem assign_none_unfold (db : DB) (task userId : String) (outcome : ModelOutcome)
    (ids : FreshIds) (hE : hasEventsBucket db userId = true) (hU : userId ≠ "")
    (hAI : analyzeTaskWithAI outcome = none) :
    assignTaskToBucket db task userId outcome ids = ⟨db, bucketView db userId, 0⟩ := by
  by_cases hT : (jsTrim task) = ""
  · simp [assignTaskToBucket, hT, loadBuckets_noop db userId _ hE hU]
  · simp [assignTaskToBucket, hT, hU, ensure_noop db userId _ hE,
      loadBuckets_noop db userId _ hE hU, hAI]

theorem assign_falsy_unfold (db : DB) (task userId : String) (outcome : ModelOutcome)
    (ids : FreshIds) (j : Json) (hE : hasEventsBucket db userId = true) (hU : userId ≠ "")
    (hAI : analyzeTaskWithAI outcome = some j) (hF : jsTruthy j = false) :
    assignTaskToBucket db task userId outcome ids = ⟨db, bucketView db userId, 0⟩ := by
  by_cases hT : (jsTrim task) = ""
  · simp [assignTaskToBucket, hT, loadBuckets_noop db userId _ hE hU]
  · simp [assignTaskToBucket, hT, hU, ensure_noop db userId _ hE,
      loadBuckets_noop db userId _ hE hU, hAI, hF]

theorem assign_some_unfold (db : DB) (task userId : String) (outcome : ModelOutcome)
    (ids : FreshIds) (j : Json) (hE : hasEventsBucket db userId = true) (hU : userId ≠ "")
    (hT : (jsTrim task) ≠ "") (hAI : analyzeTaskWithAI outcome = some j)
    (hTruthy : jsTruthy j = true) :
    assignTaskToBucket db task userId outcome ids =
      (let assignment := decodeAssignment j
       let resolved := resolveTargetBucket db (bucketView db userId) assignment
         ids.newBucketId userId
       let parsedTask := assignment.parsedTask.getD emptyParsedTask
       let row := buildTaskRow ids.newTaskId resolved.2 (jsTrim task) parsedTask
       let db4 : DB := { resolved.1 with tasks := resolved.1.tasks ++ [row] }
       ⟨db4, bucketView db4 userId, fallbackInvocations parsedTask⟩) := by
  have hE4 : ∀ row : TaskRow, hasEventsBucket
      { resolveTargetBucket db (bucketView db userId) (decodeAssignment j)
          ids.newBucketId userId |>.1 with
        tasks := (resolveTargetBucket db (bucketView db userId) (decodeAssignment j)
          ids.newBucketId userId |>.1).tasks ++ [row] } userId = true := by
    intro row
    rw [hasEvents_tasks]
    exact resolve_hasEvents db (bucketView db userId) (decodeAssignment j)
      ids.newBucketId userId hE
  simp only [assignTaskToBucket, hT, hU, ensure_noop db userId _ hE,
    loadBuckets_noop db userId _ hE hU, hAI, hTruthy]
  simp only [loadBuckets_noop _ userId _ (hE4 _) hU]
  simp [hT, hU]

/-! ## Structural lemmas about the date-string parser -/

theorem digit_ne_T {c : Char} (h : c.isDigit = true) : c ≠ 'T' := by
  intro he
  subst he
  exact absurd h (by decide)

theorem parse2_split (l : List Char) (n : Nat) (r : List Char) (h : parse2 l = some (n, r)) :
    ∃ a b, l = a :: b :: r ∧ a.isDigit = true ∧ b.isDigit = true := by
  rcases l with _ | ⟨a, _ | ⟨b, t⟩⟩
  · simp [parse2] at h
  · simp [parse2] at h
  · simp only [parse2] at h
    by_cases hd : (a.isDigit && b.isDigit) = true
    · rw [if_pos hd] at h
      simp only [Option.some.injEq, Prod.mk.injEq] at h
      obtain ⟨-, rfl⟩ := h
      rw [Bool.and_eq_true] at hd
      exact ⟨a, b, rfl, hd.1, hd.2⟩
    · rw [if_neg hd] at h
      exact Option.noConfusion h

theorem parse4_split (l : List Char) (n : Nat) (r : List Char) (h : parse4 l = some (n, r)) :
    ∃ a b c d, l = a :: b :: c :: d :: r ∧
      a.isDigit = true ∧ b.isDigit = true ∧ c.isDigit = true ∧ d.isDigit = true := by
  unfold parse4 at h
  split at h
  · exact Option.noConfusion h
  case _ hi r1 h1 =>
    split at h
    · exact Option.noConfusion h
    case _ lo r2 h2 =>
      simp only [Option.some.injEq, Prod.mk.injEq] at h
      obtain ⟨-, rfl⟩ := h
      obtain ⟨a, b, rfl, ha, hb⟩ := parse2_split _ _ _ h1
      obtain ⟨c, d, rfl, hc, hd⟩ := parse2_split _ _ _ h2
      exact ⟨a, b, c, d, rfl, ha, hb, hc, hd⟩

theorem parseDatePrefix_split (l : List Char) (v : Int) (rest : List Char)
    (h : parseDatePrefix l = some (v, rest)) :
    ∃ pre, l = pre ++ rest ∧ 'T' ∉ pre := by
  unfold parseDatePrefix at h
  split at h
  · exact Option.noConfusion h
  case _ y r1 h4 =>
    obtain ⟨a, b, c, d, rfl, ha, hb, hc, hd⟩ := parse4_split _ _ _ h4
    split at h
    case _ r2 =>
      -- r1 = '-' :: r2
      split at h
      · exact Option.noConfusion h
      case _ m r3 h2 =>
        obtain ⟨e, f, rfl, he, hf⟩ := parse2_split _ _ _ h2
        split at h
        · exact Option.noConfusion h
        split at h
        case _ r4 =>
          -- r3 = '-' :: r4
          split at h
          · exact Option.noConfusion h
          case _ dd r5 h5 =>
            obtain ⟨g, g2, rfl, hg, hg2⟩ := parse2_split _ _ _ h5
            split at h
            · exact Option.noConfusion h
            · simp only [Option.some.injEq, Prod.mk.injEq] at h
              obtain ⟨-, rfl⟩ := h
              refine ⟨[a, b, c, d, '-', e, f, '-', g, g2], by simp, ?_⟩
              intro hm
              simp only [List.mem_cons, List.not_mem_nil, or_false] at hm
              rcases hm with rfl | rfl | rfl | rfl | hm | rfl | rfl | hm | rfl | rfl
              all_goals first
                | exact digit_ne_T (by assumption) rfl
                | exact absurd hm (by decide)
        case _ hne =>
          simp only [Option.some.injEq, Prod.mk.injEq] at h
          obtain ⟨-, rfl⟩ := h
          refine ⟨[a, b, c, d, '-', e, f], by simp, ?_⟩
          intro hm
          simp only [List.mem_cons, List.not_mem_nil, or_false] at hm
          rcases hm with rfl | rfl | rfl | rfl | hm | rfl | rfl
          all_goals first
            | exact digit_ne_T (by assumption) rfl
            | exact absurd hm (by decide)
    case _ hne =>
      simp only [Option.some.injEq, Prod.mk.injEq] at h
      obtain ⟨-, rfl⟩ := h
      refine ⟨[a, b, c, d], by simp, ?_⟩
      intro hm
      simp only [List.mem_cons, List.not_mem_nil, or_false] at hm
      rcases hm with rfl | rfl | rfl | rfl
      all_goals exact digit_ne_T (by assumption) rfl

theorem takeWhile_digit_mem (l : List Char) :
    ∀ c ∈ l.takeWhile Char.isDigit, c.isDigit = true := by
  induction l with
  | nil => simp
  | cons x xs ih =>
    intro c hc
    by_cases hx : x.isDigit = true
    · rw [List.takeWhile_cons_of_pos hx] at hc
      rcases List.mem_cons.mp hc with rfl | hc2
      · exact hx
      · exact ih c hc2
    · rw [List.takeWhile_cons_of_neg (by simpa using hx)] at hc
      exact absurd hc (List.not_mem_nil c)

theorem parseHM_noT (l : List Char) (v : Int) (h : parseHM l = some v) : 'T' ∉ l := by
  unfold parseHM at h
  split at h
  case _ a b c d =>
    split at h
    case _ hd =>
      intro hm
      simp only [List.mem_cons, List.not_mem_nil, or_false] at hm
      rcases hm with rfl | rfl | hm | rfl | rfl
      all_goals first
        | exact absurd hm (by decide)
        | exact digit_ne_T (by simp_all) rfl
    case _ => exact Option.noConfusion h
  case _ => exact Option.noConfusion h

theorem parseOffsetPart_noT (l : List Char) (v : Int) (h : parseOffsetPart l = some v) :
    'T' ∉ l := by
  unfold parseOffsetPart at h
  split at h
  · simp
  · decide
  case _ r =>
    intro hm
    rcases List.mem_cons.mp hm with hm2 | hm2
    · exact absurd hm2 (by decide)
    · exact absurd hm2 (parseHM_noT r v h)
  case _ r =>
    rcases Option.map_eq_some'.mp h with ⟨w, hw, -⟩
    intro hm
    rcases List.mem_cons.mp hm with hm2 | hm2
    · exact absurd hm2 (by decide)
    · exact absurd hm2 (parseHM_noT r w hw)
  case _ => exact Option.noConfusion h

theorem parseSecFrac_split (l : List Char) (ss : Nat) (z : Bool) (r : List Char)
    (h : parseSecFrac l = some (ss, z, r)) :
    ∃ pre, l = pre ++ r ∧ 'T' ∉ pre := by
  unfold parseSecFrac at h
  split at h
  case _ s1 s2 rr =>
    split at h
    case _ hd =>
      split at h
      case _ r2 =>
        dsimp only at h
        split at h
        · exact Option.noConfusion h
        · simp only [Option.some.injEq, Prod.mk.injEq] at h
          obtain ⟨-, -, rfl⟩ := h
          refine ⟨':' :: s1 :: s2 :: '.' :: r2.takeWhile Char.isDigit, ?_, ?_⟩
          · simp [List.takeWhile_append_dropWhile]
          · intro hm
            simp only [List.mem_cons] at hm
            rcases hm with hm | rfl | rfl | hm | hm
            · exact absurd hm (by decide)
            · exact digit_ne_T (by simp_all) rfl
            · exact digit_ne_T (by simp_all) rfl
            · exact absurd hm (by decide)
            · exact digit_ne_T (takeWhile_digit_mem r2 'T' hm) rfl
      case _ =>
        simp only [Option.some.injEq, Prod.mk.injEq] at h
        obtain ⟨-, -, rfl⟩ := h
        refine ⟨[':', s1, s2], rfl, ?_⟩
        intro hm
        simp only [List.mem_cons, List.not_mem_nil, or_false] at hm
        rcases hm with hm | rfl | rfl
        · exact absurd hm (by decide)
        · exact digit_ne_T (by simp_all) rfl
        · exact digit_ne_T (by simp_all) rfl
    case _ => exact Option.noConfusion h
  case _ =>
    simp only [Option.some.injEq, Prod.mk.injEq] at h
    obtain ⟨-, -, rfl⟩ := h
    exact ⟨[], rfl, by simp⟩

theorem parseTimeFull_noT (l : List Char) (v : Int) (h : parseTimeFull l = some v) :
    'T' ∉ l := by
  unfold parseTimeFull at h
  split at h
  case _ a1 a2 m1 m2 rest =>
    split at h
    case _ hdig =>
      split at h
      · exact Option.noConfusion h
      case _ ss msZero r2 hsf =>
        split at h
        · exact Option.noConfusion h
        case _ off hoff =>
          dsimp only at h
          split at h
          · obtain ⟨pre, rfl, hpreT⟩ := parseSecFrac_split rest ss msZero r2 hsf
            have hoffT := parseOffsetPart_noT r2 off hoff
            intro hm
            simp only [List.mem_cons, List.mem_append] at hm
            rcases hm with rfl | rfl | hm | rfl | rfl | hm | hm
            · exact digit_ne_T (by simp_all) rfl
            · exact digit_ne_T (by simp_all) rfl
            · exact absurd hm (by decide)
            · exact digit_ne_T (by simp_all) rfl
            · exact digit_ne_T (by simp_all) rfl
            · exact hpreT hm
            · exact hoffT hm
          · exact Option.noConfusion h
    case _ => exact Option.noConfusion h
  case _ => exact Option.noConfusion h

/-- The character list of `"00:00:00"`, the time part composed for a task
without a time of day. -/
def timeZeroChars : List Char := ['0', '0', ':', '0', '0', ':', '0', '0']

theorem parseTimeFull_zero : parseTimeFull timeZeroChars = some 0 := by decide

theorem parseJsDateChars_midnight (dl : List Char) (s : Int)
    (h : parseJsDateChars (dl ++ 'T' :: timeZeroChars) = some s) : s.emod 86400 = 0 := by
  unfold parseJsDateChars at h
  split at h
  · exact Option.noConfusion h
  case _ days rest hdp =>
    obtain ⟨pre, hpre, hpreT⟩ := parseDatePrefix_split _ days rest hdp
    split at h
    case _ =>
      -- rest = []
      rw [List.append_nil] at hpre
      exact absurd (hpre ▸ (List.mem_append_right dl (List.mem_cons_self 'T' timeZeroChars)))
        hpreT
    case _ _unused tc =>
      -- rest = 'T' :: tc
      rcases Option.map_eq_some'.mp h with ⟨w, hw, hs⟩
      have htcT : 'T' ∉ tc := parseTimeFull_noT tc w hw
      have htc : tc = timeZeroChars := by
        rcases List.append_eq_append_iff.mp hpre with ⟨a2, ha, hb⟩ | ⟨c2, hc, hd⟩
        · -- pre = dl ++ a2, 'T' :: timeZeroChars = a2 ++ 'T' :: tc
          rcases a2 with _ | ⟨x, xs⟩
          · have h2 : timeZeroChars = tc := by simpa using hb
            exact h2.symm
          · have hx : 'T' = x := by simpa using congrArg List.head? hb
            rw [← hx] at ha
            exact absurd (ha ▸ List.mem_append_right dl (List.mem_cons_self 'T' xs)) hpreT
        · -- dl = pre ++ c2, 'T' :: tc = c2 ++ 'T' :: timeZeroChars
          rcases c2 with _ | ⟨x, xs⟩
          · simpa using hd
          · have hx : 'T' = x := by simpa using congrArg List.head? hd
            rw [← hx] at hd
            have h3 : tc = xs ++ 'T' :: timeZeroChars := by simpa using hd
            exact absurd (h3 ▸ List.mem_append_right xs
              (List.mem_cons_self 'T' timeZeroChars)) htcT
      subst htc
      rw [parseTimeFull_zero] at hw
      obtain rfl : (0 : Int) = w := by simpa using hw
      subst hs
      rw [add_zero]
      exact Int.mul_emod_left days 86400
    case _ => exact Option.noConfusion h

theorem hours_minutes_of_emod (s : Int) (h : s.emod 86400 = 0) :
    getUTCHours s = 0 ∧ getUTCMinutes s = 0 := by
  obtain ⟨k, hk⟩ := Int.dvd_of_emod_eq_zero h
  subst hk
  unfold getUTCHours getUTCMinutes
  constructor
  · have h1 : (86400 * k).fdiv 3600 = 24 * k := by
      rw [show (86400 : Int) * k = 3600 * (24 * k) by ring]
      exact Int.mul_fdiv_cancel_left _ (by norm_num)
    rw [h1, show (24 * k).emod 24 = 0 from Int.mul_emod_right 24 k]
    rfl
  · have h1 : (86400 * k).fdiv 60 = 1440 * k := by
      rw [show (86400 : Int) * k = 60 * (1440 * k) by ring]
      exact Int.mul_fdiv_cancel_left _ (by norm_num)
    rw [h1, show (1440 : Int) * k = 60 * (24 * k) by ring,
      show (60 * (24 * k)).emod 60 = 0 from Int.mul_emod_right 60 (24 * k)]
    rfl

theorem composeDueDate_midnight (d : String) (t : Option String) (s : Int)
    (ht : t = none ∨ t = some "" ∨ t = some "00:00")
    (h : composeDueDate (some d) t = some s) : s.emod 86400 = 0 := by
  have hiso : parseJsDate (d ++ "T" ++ "00:00:00") = some s := by
    by_cases hd : d.isEmpty
    · rcases ht with rfl | rfl | rfl <;> simp [composeDueDate, strFalsy, hd] at h
    · rcases ht with rfl | rfl | rfl <;>
        simpa [composeDueDate, strFalsy, hd] using h
  have hdata : (d ++ "T" ++ "00:00:00").data = d.data ++ 'T' :: timeZeroChars := by
    rw [String.append_assoc]
    have h2 : ("T" ++ "00:00:00").data = 'T' :: timeZeroChars := by decide
    rw [← h2]
    exact congrArg (fun l => d.data ++ l) rfl |>.trans (String.data_append d _).symm |>.symm
  unfold parseJsDate at hiso
  rw [hdata] at hiso
  exact parseJsDateChars_midnight d.data s hiso

theorem assign_blank_general (db : DB) (task userId : String) (outcome : ModelOutcome)
    (ids : FreshIds) (hU : userId ≠ "") (hT : (jsTrim task) = "") :
    assignTaskToBucket db task userId outcome ids =
      ⟨ensureDefaultBuckets db userId ids.defaultBucketId,
       bucketView (ensureDefaultBuckets db userId ids.defaultBucketId) userId, 0⟩ := by
  simp [assignTaskToBucket, hT, loadBuckets, hU]

theorem assign_none_general (db : DB) (task userId : String) (outcome : ModelOutcome)
    (ids : FreshIds) (hU : userId ≠ "") (hAI : analyzeTaskWithAI outcome = none) :
    assignTaskToBucket db task userId outcome ids =
      ⟨ensureDefaultBuckets db userId ids.defaultBucketId,
       bucketView (ensureDefaultBuckets db userId ids.defaultBucketId) userId, 0⟩ := by
  have hE1 := ensure_hasEvents db userId ids.defaultBucketId
  by_cases hT : (jsTrim task) = ""
  · exact assign_blank_general db task userId outcome ids hU hT
  · simp [assignTaskToBucket, hT, hU, hAI, loadBuckets_noop _ userId _ hE1 hU,
      ensure_noop _ userId _ hE1]

/-! ## Claim C1 -/

/-- C1 counterexample: with no prior buckets, `assignTaskToBucket` with an AI
failure still inserts a bucket row — the lazily created default bucket — so
the bucket state is not left unchanged, contrary to the claim. -/
theorem C1_counterexample :
    analyzeTaskWithAI ModelOutcome.failure = none ∧
    emptyDB.buckets = [] ∧
    (assignTaskToBucket emptyDB "buy milk" "u1" ModelOutcome.failure
      ⟨"d1", "b1", "t1"⟩).db.buckets = [⟨"d1", "Events", "u1"⟩] := by
  refine ⟨rfl, rfl, by decide⟩

/-- C1 (amended): when the AI classification client yields no suggestion
(model-call failure or JSON parse failure), `assignTaskToBucket` inserts no
task row, invokes no write-time fallback categorization, and performs no
write beyond the idempotent default-bucket creation; in particular, for a
user whose default bucket already exists, the store and the returned view
are exactly the current state. -/
theorem C1_ai_no_suggestion_amended :
    (∀ (db : DB) (task userId : String) (outcome : ModelOutcome) (ids : FreshIds),
      userId ≠ "" → analyzeTaskWithAI outcome = none →
      assignTaskToBucket db task userId outcome ids =
        ⟨ensureDefaultBuckets db userId ids.defaultBucketId,
         bucketView (ensureDefaultBuckets db userId ids.defaultBucketId) userId, 0⟩) ∧
    (∀ (db : DB) (userId i : String), (ensureDefaultBuckets db userId i).tasks = db.tasks) ∧
    (∀ (db : DB) (task userId : String) (outcome : ModelOutcome) (ids : FreshIds),
      userId ≠ "" → hasEventsBucket db userId = true → analyzeTaskWithAI outcome = none →
      assignTaskToBucket db task userId outcome ids = ⟨db, bucketView db userId, 0⟩) := by
  refine ⟨fun db task userId outcome ids hU hAI =>
      assign_none_general db task userId outcome ids hU hAI,
    fun db userId i => ?_,
    fun db task userId outcome ids hU hE hAI =>
      assign_none_unfold db task userId outcome ids hE hU hAI⟩
  unfold ensureDefaultBuckets
  split <;> rfl

/-- C1 witness. -/
theorem C1_witness :
    (("u1" : String) ≠ "" ∧
     hasEventsBucket ⟨[⟨"e1", "Events", "u1"⟩], []⟩ "u1" = true ∧
     analyzeTaskWithAI ModelOutcome.failure = none) ∧
    assignTaskToBucket ⟨[⟨"e1", "Events", "u1"⟩], []⟩ "buy milk" "u1" ModelOutcome.failure
      ⟨"d1", "b1", "t1"⟩ =
      ⟨⟨[⟨"e1", "Events", "u1"⟩], []⟩, bucketView ⟨[⟨"e1", "Events", "u1"⟩], []⟩ "u1", 0⟩ :=
  ⟨⟨by decide, by decide, rfl⟩,
    C1_ai_no_suggestion_amended.2.2 ⟨[⟨"e1", "Events", "u1"⟩], []⟩ "buy milk" "u1"
      ModelOutcome.failure ⟨"d1", "b1", "t1"⟩ (by decide) (by decide) rfl⟩

/-! ## Claim C7 -/

/-- C7 counterexample: blank text for a user with no prior buckets performs
a storage write (the default-bucket insert) and changes the bucket state,
contrary to "no writes". -/
theorem C7_counterexample :
    (jsTrim "   ") = "" ∧
    emptyDB.buckets = [] ∧
    (assignTaskToBucket emptyDB "   " "u1" ModelOutcome.failure
      ⟨"d1", "b1", "t1"⟩).db.buckets = [⟨"d1", "Events", "u1"⟩] := by
  refine ⟨by decide, rfl, by decide⟩

/-- C7 (amended): an empty user id always returns the current state (the
empty view) with no writes; blank or whitespace-only text inserts no task
row and performs no write beyond the idempotent default-bucket creation, and
returns the current state exactly when the user's default bucket already
exists. -/
theorem C7_blank_input_amended :
    (∀ (db : DB) (task : String) (outcome : ModelOutcome) (ids : FreshIds),
      assignTaskToBucket db task "" outcome ids = ⟨db, [], 0⟩) ∧
    (∀ (db : DB) (task userId : String) (outcome : ModelOutcome) (ids : FreshIds),
      userId ≠ "" → (jsTrim task) = "" →
      assignTaskToBucket db task userId outcome ids =
        ⟨ensureDefaultBuckets db userId ids.defaultBucketId,
         bucketView (ensureDefaultBuckets db userId ids.defaultBucketId) userId, 0⟩) ∧
    (∀ (db : DB) (task userId : String) (outcome : ModelOutcome) (ids : FreshIds),
      userId ≠ "" → (jsTrim task) = "" → hasEventsBucket db userId = true →
      assignTaskToBucket db task userId outcome ids = ⟨db, bucketView db userId, 0⟩) := by
  refine ⟨fun db task outcome ids => ?_,
    fun db task userId outcome ids hU hT =>
      assign_blank_general db task userId outcome ids hU hT,
    fun db task userId outcome ids hU hT hE => ?_⟩
  · simp [assignTaskToBucket, loadBuckets]
  · rw [assign_blank_general db task userId outcome ids hU hT,
      ensure_noop db userId ids.defaultBucketId hE]

/-- C7 witness. -/
theorem C7_witness :
    (("u1" : String) ≠ "" ∧ (jsTrim "  ") = "" ∧
     hasEventsBucket ⟨[⟨"e1", "Events", "u1"⟩], []⟩ "u1" = true) ∧
    assignTaskToBucket ⟨[⟨"e1", "Events", "u1"⟩], []⟩ "  " "u1" ModelOutcome.failure
      ⟨"d1", "b1", "t1"⟩ =
      ⟨⟨[⟨"e1", "Events", "u1"⟩], []⟩, bucketView ⟨[⟨"e1", "Events", "u1"⟩], []⟩ "u1", 0⟩ :=
  ⟨⟨by decide, by decide, by decide⟩,
    C7_blank_input_amended.2.2 ⟨[⟨"e1", "Events", "u1"⟩], []⟩ "  " "u1" ModelOutcome.failure
      ⟨"d1", "b1", "t1"⟩ (by decide) (by decide) (by decide)⟩

/-! ## Claim C9 -/

/-- C9 counterexample: `deleteBucket` with a target id not owned by the
caller still performs a storage write for a caller whose default bucket does
not exist yet — the reload inserts the default bucket row — so the state is
not unchanged. -/
theorem C9_counterexample :
    ((⟨[⟨"b9", "Chem", "u2"⟩], []⟩ : DB).buckets.filter
        (fun b => b.id == "b9" && b.userId == "u1")) = [] ∧
    (deleteBucket ⟨[⟨"b9", "Chem", "u2"⟩], []⟩ "u1" "b9" "d1").1 =
      ⟨[⟨"b9", "Chem", "u2"⟩, ⟨"d1", "Events", "u1"⟩], []⟩ := by
  refine ⟨by decide, by decide⟩

/-- C9 (amended): a mutation whose target id is not owned by the caller
never raises and never touches any targeted row: `updateTask` returns the
unchanged state unconditionally, and `deleteBucket`, `completeTask` and
`updateBucketName` return the unchanged state whenever the caller's default
bucket already exists (otherwise their only write is the idempotent
default-bucket creation performed by the embedded reload). -/
theorem C9_auth_noop_amended :
    (∀ (db : DB) (userId taskId : String) (updates : TaskUpdates),
      taskOwnedBy db userId taskId = none →
      updateTask db userId taskId updates = (db, loadCalendarTasks db userId)) ∧
    (∀ (db : DB) (userId bucketId i : String),
      hasEventsBucket db userId = true → userId ≠ "" →
      (db.buckets.filter (fun b => b.id == bucketId && b.userId == userId)) = [] →
      deleteBucket db userId bucketId i = (db, bucketView db userId)) ∧
    (∀ (db : DB) (userId taskId i : String),
      hasEventsBucket db userId = true → userId ≠ "" →
      taskOwnedBy db userId taskId = none →
      completeTask db userId taskId i = (db, bucketView db userId)) ∧
    (∀ (db : DB) (userId bucketId newName i : String),
      hasEventsBucket db userId = true → userId ≠ "" →
      (db.buckets.filter (fun b => b.id == bucketId && b.userId == userId)) = [] →
      updateBucketName db userId bucketId newName i = (db, bucketView db userId)) := by
  refine ⟨fun db userId taskId updates hOwn => ?_,
    fun db userId bucketId i hE hU hFilter => ?_,
    fun db userId taskId i hE hU hOwn => ?_,
    fun db userId bucketId newName i hE hU hFilter => ?_⟩
  · simp [updateTask, hOwn]
  · simp [deleteBucket, hFilter, loadBuckets_noop db userId i hE hU]
  · simp [completeTask, hOwn, loadBuckets_noop db userId i hE hU]
  · simp [updateBucketName, hFilter, loadBuckets_noop db userId i hE hU]

/-- C9 witness. -/
theorem C9_witness :
    (hasEventsBucket ⟨[⟨"e1", "Events", "u1"⟩], []⟩ "u1" = true ∧
     ("u1" : String) ≠ "" ∧
     ((⟨[⟨"e1", "Events", "u1"⟩], []⟩ : DB).buckets.filter
       (fun b => b.id == "zzz" && b.userId == "u1")) = []) ∧
    deleteBucket ⟨[⟨"e1", "Events", "u1"⟩], []⟩ "u1" "zzz" "d9" =
      (⟨[⟨"e1", "Events", "u1"⟩], []⟩, bucketView ⟨[⟨"e1", "Events", "u1"⟩], []⟩ "u1") :=
  ⟨⟨by decide, by decide, by decide⟩,
    C9_auth_noop_amended.2.1 ⟨[⟨"e1", "Events", "u1"⟩], []⟩ "u1" "zzz" "d9"
      (by decide) (by decide) (by decide)⟩

/-! ## Claim C8 -/

/-- C8: delete and rename against a bucket whose name matches a reserved
default name (case-insensitive exact comparison, no whitespace stripping —
distinct from the whitespace-stripping duplicate normalization) are no-ops;
the default bucket is created by `loadBuckets` and `assignTaskToBucket` when
missing, and a second creation attempt is a no-op, so it is auto-created at
most once per user. -/
theorem C8_default_bucket_protection :
    (∀ (db : DB) (userId bucketId i : String) (b : BucketRow),
      hasEventsBucket db userId = true → userId ≠ "" →
      ((db.buckets.filter (fun x => x.id == bucketId && x.userId == userId)).head? = some b) →
      isDefaultBucketName b.name = true →
      deleteBucket db userId bucketId i = (db, bucketView db userId)) ∧
    (∀ (db : DB) (userId bucketId newName i : String) (b : BucketRow),
      hasEventsBucket db userId = true → userId ≠ "" →
      ((db.buckets.filter (fun x => x.id == bucketId && x.userId == userId)).head? = some b) →
      isDefaultBucketName b.name = true →
      updateBucketName db userId bucketId newName i = (db, bucketView db userId)) ∧
    (isDefaultBucketName "EVENTS" = true ∧ isDefaultBucketName " events" = false ∧
      normalizeName " events" = normalizeName "Events") ∧
    (∀ (db : DB) (userId i j : String),
      ensureDefaultBuckets (ensureDefaultBuckets db userId i) userId j =
        ensureDefaultBuckets db userId i) ∧
    (∀ (db : DB) (userId i : String), userId ≠ "" →
      hasEventsBucket (loadBuckets db userId i).1 userId = true) ∧
    (∀ (db : DB) (task userId : String) (outcome : ModelOutcome) (ids : FreshIds),
      userId ≠ "" →
      hasEventsBucket (assignTaskToBucket db task userId outcome ids).db userId = true) := by
  refine ⟨fun db userId bucketId i b hE hU hFind hDef => ?_,
    fun db userId bucketId newName i b hE hU hFind hDef => ?_,
    ⟨by decide, by decide, by decide⟩,
    fun db userId i j => ensure_noop _ userId j (ensure_hasEvents db userId i),
    fun db userId i hU => ?_, fun db task userId outcome ids hU => ?_⟩
  · simp [deleteBucket, hFind, hDef, loadBuckets_noop db userId i hE hU]
  · simp [updateBucketName, hFind, hDef, loadBuckets_noop db userId i hE hU]
  · simp [loadBuckets, hU, ensure_hasEvents]
  · by_cases hT : (jsTrim task) = ""
    · simp [assignTaskToBucket, hT, loadBuckets, hU, ensure_hasEvents]
    · cases hAI : analyzeTaskWithAI outcome with
      | none => simp [assignTaskToBucket, hT, hU, hAI, loadBuckets, ensure_hasEvents]
      | some j =>
        by_cases hTr : jsTruthy j = true
        · simp [assignTaskToBucket, hT, hU, hAI, hTr, loadBuckets, ensure_hasEvents]
        · simp [assignTaskToBucket, hT, hU, hAI, hTr, loadBuckets, ensure_hasEvents]

/-- C8 witness. -/
theorem C8_witness :
    (hasEventsBucket ⟨[⟨"e1", "Events", "u1"⟩], []⟩ "u1" = true ∧
     ("u1" : String) ≠ "" ∧
     ((⟨[⟨"e1", "Events", "u1"⟩], []⟩ : DB).buckets.filter
       (fun x => x.id == "e1" && x.userId == "u1")).head? = some ⟨"e1", "Events", "u1"⟩ ∧
     isDefaultBucketName "Events" = true) ∧
    deleteBucket ⟨[⟨"e1", "Events", "u1"⟩], []⟩ "u1" "e1" "d9" =
      (⟨[⟨"e1", "Events", "u1"⟩], []⟩, bucketView ⟨[⟨"e1", "Events", "u1"⟩], []⟩ "u1") :=
  ⟨⟨by decide, by decide, by decide, by decide⟩,
    C8_default_bucket_protection.1 ⟨[⟨"e1", "Events", "u1"⟩], []⟩ "u1" "e1" "d9"
      ⟨"e1", "Events", "u1"⟩ (by decide) (by decide) (by decide) (by decide)⟩

/-! ## Claim C3 -/

theorem normUnique_tasks (bs : List BucketRow) (ts ts2 : List TaskRow) (u : String)
    (h : bucketNamesNormUnique ⟨bs, ts⟩ u) : bucketNamesNormUnique ⟨bs, ts2⟩ u := h

theorem normUnique_append (db : DB) (u nid name : String)
    (hInv : bucketNamesNormUnique db u)
    (hnm : findNormalizedMatch (bucketView db u) name = none) :
    bucketNamesNormUnique ⟨db.buckets ++ [⟨nid, name, u⟩], db.tasks⟩ u := by
  have hAll : ∀ row ∈ db.buckets.filter (fun b => b.userId == u),
      ¬(normalizeName row.name = normalizeName name) := by
    intro row hmem heq
    have hb : (⟨row.id, row.name,
        (db.tasks.filter (fun t => t.bucketId == row.id)).map formatTaskRecord⟩ : Bucket)
        ∈ bucketView db u := by
      unfold bucketView
      exact List.mem_map.mpr ⟨row, hmem, rfl⟩
    have h2 := List.find?_eq_none.mp hnm _ hb
    simp only [beq_iff_eq] at h2
    exact h2 heq
  unfold bucketNamesNormUnique at hInv ⊢
  simp only [List.filter_append, List.map_append]
  have hrow : List.filter (fun (b : BucketRow) => b.userId == u) [⟨nid, name, u⟩]
      = [⟨nid, name, u⟩] := by simp
  rw [hrow]
  simp only [List.map_cons, List.map_nil]
  rw [List.nodup_append]
  refine ⟨hInv, List.nodup_singleton _, ?_⟩
  intro x hx hx2
  have hxe : x = normalizeName name := by simpa using hx2
  subst hxe
  rcases List.mem_map.mp hx with ⟨row2, hmem, hxeq⟩
  exact hAll row2 hmem hxeq

/-- C3 counterexample: explicit empty-bucket creation performs no
normalized-duplicate check, so two creations whose names normalize equally
leave the user with two buckets of the same normalized name — the invariant
is not preserved by `createEmptyBucket`. -/
theorem C3_counterexample :
    bucketNamesNormUnique (createEmptyBucket emptyDB "u1" "Math" "b1" "d1").1 "u1" ∧
    ¬ bucketNamesNormUnique
        (createEmptyBucket (createEmptyBucket emptyDB "u1" "Math" "b1" "d1").1
          "u1" "MATH" "b2" "d2").1 "u1" := by
  constructor <;> decide

/-- C3 (amended): the AI-assignment path does preserve the normalized-name
uniqueness invariant (for a user whose default bucket exists, which every
reachable state with any bucket provides): a bucket row is only inserted
after the normalized-name match against all loaded buckets fails.  Explicit
empty-bucket creation performs no such check (see the counterexample). -/
theorem C3_normalized_uniqueness_amended (db : DB) (task userId : String)
    (outcome : ModelOutcome) (ids : FreshIds)
    (hE : hasEventsBucket db userId = true) (hU : userId ≠ "")
    (hInv : bucketNamesNormUnique db userId) :
    bucketNamesNormUnique (assignTaskToBucket db task userId outcome ids).db userId := by
  by_cases hT : (jsTrim task) = ""
  · rw [assign_blank_general db task userId outcome ids hU hT,
      ensure_noop db userId ids.defaultBucketId hE]
    exact hInv
  · cases hAI : analyzeTaskWithAI outcome with
    | none =>
      rw [assign_none_unfold db task userId outcome ids hE hU hAI]
      exact hInv
    | some j =>
      by_cases hTr : jsTruthy j = true
      · rw [assign_some_unfold db task userId outcome ids j hE hU hT hAI hTr]
        have hres : bucketNamesNormUnique
            (resolveTargetBucket db (bucketView db userId) (decodeAssignment j)
              ids.newBucketId userId).1 userId := by
          simp only [resolveTargetBucket]
          split
          · exact hInv
          · split
            · exact hInv
            case _ hnm =>
              obtain ⟨bs, ts⟩ := db
              exact normUnique_append ⟨bs, ts⟩ userId ids.newBucketId _ hInv hnm
        exact hres
      · rw [assign_falsy_unfold db task userId outcome ids j hE hU hAI
          (by simpa using hTr)]
        exact hInv

/-- C3 witness. -/
theorem C3_witness :
    (hasEventsBucket ⟨[⟨"e1", "Events", "u1"⟩], []⟩ "u1" = true ∧
     ("u1" : String) ≠ "" ∧
     bucketNamesNormUnique ⟨[⟨"e1", "Events", "u1"⟩], []⟩ "u1") ∧
    bucketNamesNormUnique
      (assignTaskToBucket ⟨[⟨"e1", "Events", "u1"⟩], []⟩ "buy milk" "u1"
        (ModelOutcome.success none) ⟨"d1", "b1", "t1"⟩).db "u1" :=
  ⟨⟨by decide, by decide, by decide⟩,
    C3_normalized_uniqueness_amended ⟨[⟨"e1", "Events", "u1"⟩], []⟩ "buy milk" "u1"
      (ModelOutcome.success none) ⟨"d1", "b1", "t1"⟩ (by decide) (by decide) (by decide)⟩

/-! ## Claim C2 -/

/-- C2: the Lexical Fallback Categorizer always returns one tag of the fixed
enumeration; it tests the lower-cased concatenation of raw text, description
and assignment name against the keyword groups in the fixed order Homework,
Quiz, Lab, Test, Project, Event, Reminder, returning the tag of the first
group with a pattern match and `Other` when no group matches — so a text
matching several groups resolves to the earliest (a text with both a
Homework and a Quiz keyword classifies as Homework). -/
theorem C2_lexical_categorizer :
    (∀ (task : String) (pt : Option ParsedTask),
      categorizeTaskType task pt =
        (if groupHit homeworkPats (categorizeSource task pt) then TaskType.Homework
         else if groupHit quizPats (categorizeSource task pt) then TaskType.Quiz
         else if groupHit labPats (categorizeSource task pt) then TaskType.Lab
         else if groupHit testPats (categorizeSource task pt) then TaskType.Test
         else if groupHit projectPats (categorizeSource task pt) then TaskType.Project
         else if groupHit eventPats (categorizeSource task pt) then TaskType.Event
         else if groupHit reminderPats (categorizeSource task pt) then TaskType.Reminder
         else TaskType.Other)) ∧
    (∀ (task : String) (pt : Option ParsedTask),
      categorizeTaskType task pt ∈
        [TaskType.Homework, TaskType.Quiz, TaskType.Lab, TaskType.Test,
         TaskType.Project, TaskType.Event, TaskType.Reminder, TaskType.Other]) ∧
    categorizeTaskType "math homework before the quiz" none = TaskType.Homework ∧
    categorizeTaskType "pop quiz friday" none = TaskType.Quiz ∧
    categorizeTaskType "walk the dog" none = TaskType.Other := by
  have hmain : ∀ (task : String) (pt : Option ParsedTask),
      categorizeTaskType task pt =
        (if groupHit homeworkPats (categorizeSource task pt) then TaskType.Homework
         else if groupHit quizPats (categorizeSource task pt) then TaskType.Quiz
         else if groupHit labPats (categorizeSource task pt) then TaskType.Lab
         else if groupHit testPats (categorizeSource task pt) then TaskType.Test
         else if groupHit projectPats (categorizeSource task pt) then TaskType.Project
         else if groupHit eventPats (categorizeSource task pt) then TaskType.Event
         else if groupHit reminderPats (categorizeSource task pt) then TaskType.Reminder
         else TaskType.Other) := by
    intro task pt
    unfold categorizeTaskType
    generalize categorizeSource task pt = src
    by_cases h1 : groupHit homeworkPats src = true
    · simp [typeGroups, List.find?, h1]
    · by_cases h2 : groupHit quizPats src = true
      · simp [typeGroups, List.find?, h1, h2]
      · by_cases h3 : groupHit labPats src = true
        · simp [typeGroups, List.find?, h1, h2, h3]
        · by_cases h4 : groupHit testPats src = true
          · simp [typeGroups, List.find?, h1, h2, h3, h4]
          · by_cases h5 : groupHit projectPats src = true
            · simp [typeGroups, List.find?, h1, h2, h3, h4, h5]
            · by_cases h6 : groupHit eventPats src = true
              · simp [typeGroups, List.find?, h1, h2, h3, h4, h5, h6]
              · by_cases h7 : groupHit reminderPats src = true
                · simp [typeGroups, List.find?, h1, h2, h3, h4, h5, h6, h7]
                · simp [typeGroups, List.find?, h1, h2, h3, h4, h5, h6, h7]
  refine ⟨hmain, fun task pt => ?_, by decide, by decide, by decide⟩
  cases h : categorizeTaskType task pt <;> simp

/-! ## Claim C5 -/

/-- C5: `composeDueDate` is absent when the date string is absent; an absent
time behaves as "00:00"; a 5-character time gets ":00" appended while any
other length passes through as-is; the concatenation `<date>T<time>` is
parsed, and a parse failure (such as an invalid calendar date) yields an
absent result rather than an error. -/
theorem C5_compose_rules :
    (∀ t, composeDueDate none t = none) ∧
    (∀ d, composeDueDate (some d) none = composeDueDate (some d) (some "00:00")) ∧
    (∀ d t, d ≠ "" → t ≠ "" →
      composeDueDate (some d) (some t) =
        parseJsDate (d ++ "T" ++ (if t.length == 5 then t ++ ":00" else t))) ∧
    composeDueDate (some "2024-12-01") none = some 1733011200 ∧
    composeDueDate (some "2024-13-01") none = none ∧
    parseJsDate "2024-13-01T00:00:00" = none := by
  refine ⟨fun t => rfl, fun d => ?_, fun d t hd ht => ?_, by decide, by decide, by decide⟩
  · by_cases hd : d.isEmpty = true
    · simp [composeDueDate, strFalsy, hd]
    · simp [composeDueDate, strFalsy, hd]
  · have hd2 : d.isEmpty = false := by
      rcases h : d.isEmpty with _ | _
      · rfl
      · exact absurd ((String.isEmpty_iff _).mp h) hd
    have ht2 : t.isEmpty = false := by
      rcases h : t.isEmpty with _ | _
      · rfl
      · exact absurd ((String.isEmpty_iff _).mp h) ht
    simp [composeDueDate, strFalsy, hd2, ht2]

/-- C5 witness. -/
theorem C5_witness :
    (("2024-12-01" : String) ≠ "" ∧ ("14:00" : String) ≠ "") ∧
    composeDueDate (some "2024-12-01") (some "14:00") =
      parseJsDate ("2024-12-01" ++ "T" ++
        (if ("14:00" : String).length == 5 then "14:00" ++ ":00" else "14:00")) :=
  ⟨⟨by decide, by decide⟩,
    C5_compose_rules.2.2.1 "2024-12-01" "14:00" (by decide) (by decide)⟩

/-! ## Claim C4 -/

/-- C4 counterexample: a stored due timestamp whose time of day is
00:00:30 UTC — reachable through the composer, which passes a non-5-character
time string through as-is — is not midnight UTC, yet the projection emits no
time component, because the test examines only `getUTCHours` and
`getUTCMinutes`, never the seconds. -/
theorem C4_counterexample :
    composeDueDate (some "2024-12-01") (some "00:00:30") = some 1733011230 ∧
    (1733011230 : Int).emod 86400 ≠ 0 ∧
    (formatTaskRecord ⟨"t1", "b1", "raw", none, none, some 1733011230⟩).dueTime = none := by
  refine ⟨by decide, by decide, by decide⟩

/-- C4 (amended): `compose("2024-12-01", "14:00")` re-splits to date
"2024-12-01" and time "14:00"; for every stored due timestamp the projection
emits a time component exactly when the instant's UTC hour or minute is
nonzero (seconds are not examined); and a compose result with absent, empty
or "00:00" time sits at a whole-day instant, so it yields no time
component. -/
theorem C4_due_split_amended :
    (composeDueDate (some "2024-12-01") (some "14:00") = some 1733061600 ∧
     (formatTaskRecord ⟨"t1", "b1", "raw", none, none, some 1733061600⟩).dueDate =
       some "2024-12-01" ∧
     (formatTaskRecord ⟨"t1", "b1", "raw", none, none, some 1733061600⟩).dueTime =
       some "14:00") ∧
    (∀ (row : TaskRow) (t : Int), row.dueDate = some t →
      (formatTaskRecord row).dueTime =
        (if getUTCHours t != 0 || getUTCMinutes t != 0 then some (toIsoTimeHM t) else none)) ∧
    (∀ (d : String) (tOpt : Option String) (s : Int) (row : TaskRow),
      (tOpt = none ∨ tOpt = some "" ∨ tOpt = some "00:00") →
      composeDueDate (some d) tOpt = some s →
      row.dueDate = some s →
      (formatTaskRecord row).dueTime = none) := by
  refine ⟨⟨by decide, by decide, by decide⟩, fun row t hrow => ?_,
    fun d tOpt s row ht hcomp hrow => ?_⟩
  · simp [formatTaskRecord, hrow]
  · have hmod := composeDueDate_midnight d tOpt s ht hcomp
    obtain ⟨hh, hm⟩ := hours_minutes_of_emod s hmod
    simp [formatTaskRecord, hrow, hh, hm]

/-- C4 witness. -/
theorem C4_witness :
    (((none : Option String) = none ∨ (none : Option String) = some "" ∨
        (none : Option String) = some "00:00") ∧
     composeDueDate (some "2024-12-01") none = some 1733011200 ∧
     (⟨"t1", "b1", "raw", none, none, some 1733011200⟩ : TaskRow).dueDate =
       some 1733011200) ∧
    (formatTaskRecord ⟨"t1", "b1", "raw", none, none, some 1733011200⟩).dueTime = none :=
  ⟨⟨Or.inl rfl, by decide, rfl⟩,
    C4_due_split_amended.2.2 "2024-12-01" none 1733011200
      ⟨"t1", "b1", "raw", none, none, some 1733011200⟩ (Or.inl rfl) (by decide) rfl⟩

/-! ## Claim C6 -/

theorem isEmpty_false_of_ne (s : String) (h : s ≠ "") : s.isEmpty = false := by
  rcases hh : s.isEmpty with _ | _
  · rfl
  · exact absurd ((String.isEmpty_iff _).mp hh) h

theorem jsStrOr_falsy (a : Option String) (b : String) (h : strFalsy a = true) :
    jsStrOr a b = b := by
  cases a with
  | none => rfl
  | some s =>
    simp only [strFalsy] at h
    simp [jsStrOr, h]

theorem jsStrOr_some (s b : String) (h : s ≠ "") : jsStrOr (some s) b = s := by
  simp [jsStrOr, isEmpty_false_of_ne s h]

theorem resolve_of_findId (db : DB) (ex : List Bucket) (a : AssignmentResult) (nid u : String)
    (b : Bucket) (h : findByAssignmentId ex a = some b) :
    resolveTargetBucket db ex a nid u = (db, b.id) := by
  simp [resolveTargetBucket, h]

theorem resolve_of_normMatch (db : DB) (ex : List Bucket) (a : AssignmentResult)
    (nid u : String) (b : Bucket) (h1 : findByAssignmentId ex a = none)
    (h2 : findNormalizedMatch ex (candidateBucketName a) = some b) :
    resolveTargetBucket db ex a nid u = (db, b.id) := by
  simp [resolveTargetBucket, h1, h2]

theorem resolve_of_new (db : DB) (ex : List Bucket) (a : AssignmentResult) (nid u : String)
    (h1 : findByAssignmentId ex a = none)
    (h2 : findNormalizedMatch ex (candidateBucketName a) = none) :
    resolveTargetBucket db ex a nid u =
      ({ db with buckets := db.buckets ++ [⟨nid, candidateBucketName a, u⟩] }, nid) := by
  simp [resolveTargetBucket, h1, h2]

/-- C6: for an accepted AI suggestion, the target bucket resolves in order —
the suggested existing-bucket id when it matches a loaded bucket; otherwise
the candidate name (the suggested new-bucket name, else the parsed
course/subject category, else the literal "Others"), matched against the
loaded buckets by lower-casing and removing all whitespace with the first
match in creation order winning, before any new bucket row carrying the
candidate name is inserted.  "Computer Science" normalize-matches
"computerscience" but not "Comp Sci".  Stated for clean suggestions
(`cleanSuggestion`: every raw-used field is a string or falsy), the domain
on which the decoding is faithful to the source; an unclean suggestion
instead makes the source throw at the candidate name's `toLowerCase()` or
store coerced values. -/
theorem C6_bucket_resolution (db : DB) (task userId : String) (outcome : ModelOutcome)
    (ids : FreshIds) (a : AssignmentResult)
    (hE : hasEventsBucket db userId = true) (hU : userId ≠ "")
    (hT : (jsTrim task) ≠ "")
    (hTruthy : (analyzeTaskWithAI outcome).map jsTruthy = some true)
    (hClean : (analyzeTaskWithAI outcome).map cleanSuggestion = some true)
    (hDec : (analyzeTaskWithAI outcome).map decodeAssignment = some a) :
    ResolutionSpec db task userId outcome ids a ∧
    (∀ (x : AssignmentResult) (n : String), x.newBucketName = some n → n ≠ "" →
      candidateBucketName x = n) ∧
    (∀ (x : AssignmentResult) (c : String), strFalsy x.newBucketName = true →
      x.parsedTask.bind ParsedTask.courseCategory = some c → c ≠ "" →
      candidateBucketName x = c) ∧
    (∀ x : AssignmentResult, strFalsy x.newBucketName = true →
      strFalsy (x.parsedTask.bind ParsedTask.courseCategory) = true →
      candidateBucketName x = "Others") ∧
    normalizeName "Computer Science" = normalizeName "computerscience" ∧
    normalizeName "Computer Science" ≠ normalizeName "Comp Sci" := by
  obtain ⟨j, hAI, hTr⟩ := Option.map_eq_some'.mp hTruthy
  have hdj : decodeAssignment j = a := by
    rcases Option.map_eq_some'.mp hDec with ⟨j2, hAI2, hd⟩
    rw [hAI] at hAI2
    obtain rfl : j = j2 := by simpa using hAI2
    exact hd
  subst hdj
  refine ⟨?_, fun x n hn hne => ?_, fun x c hf hc hcne => ?_, fun x hf1 hf2 => ?_,
    by decide, by decide⟩
  · simp only [ResolutionSpec]
    rw [assign_some_unfold db task userId outcome ids j hE hU hT hAI hTr]
    dsimp only
    refine ⟨fun b hfind => ?_, fun hnone => ⟨fun b hnm => ?_, fun hnm => ?_⟩⟩
    · rw [resolve_of_findId db (bucketView db userId) _ ids.newBucketId userId b hfind]
      exact ⟨rfl, rfl⟩
    · rw [resolve_of_normMatch db (bucketView db userId) _ ids.newBucketId userId b
        hnone hnm]
      exact ⟨rfl, rfl⟩
    · rw [resolve_of_new db (bucketView db userId) _ ids.newBucketId userId hnone hnm]
      exact ⟨rfl, rfl⟩
  · unfold candidateBucketName
    rw [hn, jsStrOr_some n _ hne]
  · unfold candidateBucketName
    rw [jsStrOr_falsy _ _ hf, hc, jsStrOr_some c _ hcne]
  · unfold candidateBucketName
    rw [jsStrOr_falsy _ _ hf1, jsStrOr_falsy _ _ hf2]

/-- C6 witness. -/
theorem C6_witness :
    (hasEventsBucket ⟨[⟨"e1", "Events", "u1"⟩, ⟨"b0", "Computer Science", "u1"⟩], []⟩
        "u1" = true ∧
     ("u1" : String) ≠ "" ∧ (jsTrim "CS reading") ≠ "" ∧
     (analyzeTaskWithAI (ModelOutcome.success
        (some "\x7b\"newBucketName\":\"computerscience\"\x7d"))).map jsTruthy =
       some true ∧
     (analyzeTaskWithAI (ModelOutcome.success
        (some "\x7b\"newBucketName\":\"computerscience\"\x7d"))).map cleanSuggestion =
       some true ∧
     (analyzeTaskWithAI (ModelOutcome.success
        (some "\x7b\"newBucketName\":\"computerscience\"\x7d"))).map decodeAssignment =
       some ⟨none, some "computerscience", none⟩) ∧
    ResolutionSpec ⟨[⟨"e1", "Events", "u1"⟩, ⟨"b0", "Computer Science", "u1"⟩], []⟩
      "CS reading" "u1"
      (ModelOutcome.success (some "\x7b\"newBucketName\":\"computerscience\"\x7d"))
      ⟨"d1", "b1", "t1"⟩ ⟨none, some "computerscience", none⟩ :=
  ⟨⟨by decide, by decide, by decide, by decide, by decide, by decide⟩,
    (C6_bucket_resolution ⟨[⟨"e1", "Events", "u1"⟩, ⟨"b0", "Computer Science", "u1"⟩], []⟩
      "CS reading" "u1"
      (ModelOutcome.success (some "\x7b\"newBucketName\":\"computerscience\"\x7d"))
      ⟨"d1", "b1", "t1"⟩ ⟨none, some "computerscience", none⟩
      (by decide) (by decide) (by decide) (by decide) (by decide) (by decide)).1⟩

/-! ## Claim C10 -/

/-- C10: a successful model call with absent message content defaults to the
literal empty-object text, which parses to a truthy empty suggestion — not
"no suggestion" — so assign-task still creates a task: assignment name the
literal "Task", description the trimmed raw text, no due timestamp, type tag
re-derived by the Lexical Fallback Categorizer (which is also the write-time
invocation counted here), in a bucket resolved from the literal name
"Others"; the same holds for any accepted clean suggestion with no usable
fields — a `bucketId` or `typeTag` that is absent or inert (non-string
values fail the `===` and `includes` tests), a `parsedTask` that is
absent, non-object, or all-absent/falsy inside, and (by `cleanSuggestion`)
a `newBucketName` and parsed-task strings that are strings or falsy, hence
absent or empty when decoded to none.  The `cleanSuggestion` hypothesis
confines the claim to the decoding's fidelity domain: a truthy non-string
in a raw-used field makes the source throw at `toLowerCase()` or store the
coerced value instead. -/
theorem C10_empty_suggestion (db : DB) (task userId : String) (outcome : ModelOutcome)
    (ids : FreshIds) (a : AssignmentResult)
    (hE : hasEventsBucket db userId = true) (hU : userId ≠ "")
    (hT : (jsTrim task) ≠ "")
    (hTruthy : (analyzeTaskWithAI outcome).map jsTruthy = some true)
    (hClean : (analyzeTaskWithAI outcome).map cleanSuggestion = some true)
    (hDec : (analyzeTaskWithAI outcome).map decodeAssignment = some a)
    (hEmpty : a = ⟨none, none, none⟩ ∨ a = ⟨none, none, some emptyParsedTask⟩) :
    ((analyzeTaskWithAI (ModelOutcome.success none)).map decodeAssignment =
       some ⟨none, none, none⟩ ∧
     (analyzeTaskWithAI (ModelOutcome.success none)).map jsTruthy = some true) ∧
    EmptySuggestionSpec db task userId outcome ids := by
  obtain ⟨j, hAI, hTr⟩ := Option.map_eq_some'.mp hTruthy
  have hdj : decodeAssignment j = a := by
    rcases Option.map_eq_some'.mp hDec with ⟨j2, hAI2, hd⟩
    rw [hAI] at hAI2
    obtain rfl : j = j2 := by simpa using hAI2
    exact hd
  refine ⟨⟨rfl, rfl⟩, ?_⟩
  simp only [EmptySuggestionSpec]
  rw [assign_some_unfold db task userId outcome ids j hE hU hT hAI hTr]
  dsimp only
  rw [hdj]
  cases hnm : findNormalizedMatch (bucketView db userId) "Others" with
  | none =>
    rcases hEmpty with rfl | rfl
    · rw [resolve_of_new db (bucketView db userId) ⟨none, none, none⟩
        ids.newBucketId userId rfl hnm]
      exact ⟨rfl, fun _ => rfl, fun b hb => Option.noConfusion hb, rfl, rfl⟩
    · rw [resolve_of_new db (bucketView db userId) ⟨none, none, some emptyParsedTask⟩
        ids.newBucketId userId rfl hnm]
      exact ⟨rfl, fun _ => rfl, fun b hb => Option.noConfusion hb, rfl, rfl⟩
  | some b =>
    rcases hEmpty with rfl | rfl
    · rw [resolve_of_normMatch db (bucketView db userId) ⟨none, none, none⟩
        ids.newBucketId userId b rfl hnm]
      exact ⟨rfl, fun hb => Option.noConfusion hb, fun b2 hb2 => rfl, rfl, rfl⟩
    · rw [resolve_of_normMatch db (bucketView db userId) ⟨none, none, some emptyParsedTask⟩
        ids.newBucketId userId b rfl hnm]
      exact ⟨rfl, fun hb => Option.noConfusion hb, fun b2 hb2 => rfl, rfl, rfl⟩

/-- C10 witness. -/
theorem C10_witness :
    (hasEventsBucket ⟨[⟨"e1", "Events", "u1"⟩], []⟩ "u1" = true ∧
     ("u1" : String) ≠ "" ∧ (jsTrim " buy milk ") ≠ "" ∧
     (analyzeTaskWithAI (ModelOutcome.success none)).map jsTruthy = some true ∧
     (analyzeTaskWithAI (ModelOutcome.success none)).map cleanSuggestion = some true ∧
     (analyzeTaskWithAI (ModelOutcome.success none)).map decodeAssignment =
       some ⟨none, none, none⟩) ∧
    EmptySuggestionSpec ⟨[⟨"e1", "Events", "u1"⟩], []⟩ " buy milk " "u1"
      (ModelOutcome.success none) ⟨"d1", "b1", "t1"⟩ :=
  ⟨⟨by decide, by decide, by decide, by decide, by decide, by decide⟩,
    (C10_empty_suggestion ⟨[⟨"e1", "Events", "u1"⟩], []⟩ " buy milk " "u1"
      (ModelOutcome.success none) ⟨"d1", "b1", "t1"⟩ ⟨none, none, none⟩
      (by decide) (by decide) (by decide) (by decide) (by decide) (by decide)
      (Or.inl rfl)).2⟩
